import Mathlib

/-!
# Verification of the multi-resource intake-and-publish workflow

Shallow embedding of the core of the `automated-pr-chatbot` repository
(`app/api.py`, `app/tools/glue_pr_tool.py`, `app/tools/s3_pr_tool.py`,
`app/tools/iam_role_tool.py`, `app/validators/governance_rules.py`,
`app/services/yaml_generator.py`, `app/services/git_ops.py`), together with
theorems settling the specification claims about it.

Python strings are modelled as Lean `String`s; the Python string primitives
used by the source (`lower`, `upper`, `strip`, `split`, `startswith`, `in`,
`replace`, `count`, `isdigit`, `islower`, `isalnum`) are modelled explicitly
on the underlying character lists, restricted to the ASCII behaviour the
source relies on.
-/

namespace IntakeBot

/-! ## Python string primitives -/

/-- ASCII lower-casing of one character (models Python `str.lower` on ASCII). -/
def lowerChar (c : Char) : Char :=
  if 'A' ≤ c ∧ c ≤ 'Z' then Char.ofNat (c.toNat + 32) else c

/-- ASCII upper-casing of one character (models Python `str.upper` on ASCII). -/
def upperChar (c : Char) : Char :=
  if 'a' ≤ c ∧ c ≤ 'z' then Char.ofNat (c.toNat - 32) else c

/-- Models Python `str.lower` (ASCII domain). -/
def pyLower (s : String) : String := ⟨s.data.map lowerChar⟩

/-- Models Python `str.upper` (ASCII domain). -/
def pyUpper (s : String) : String := ⟨s.data.map upperChar⟩

/-- Boolean test: the first list is an initial segment of the second. -/
def listStarts : List Char → List Char → Bool
  | [], _ => true
  | _ :: _, [] => false
  | p :: ps, c :: cs => p == c && listStarts ps cs

/-- Models Python `s.startswith(p)`. -/
def pyStartsWith (s p : String) : Bool := listStarts p.data s.data

/-- Boolean contiguous-substring test on character lists. -/
def listHasSub (needle : List Char) : List Char → Bool
  | [] => needle.isEmpty
  | c :: cs => listStarts needle (c :: cs) || listHasSub needle cs

/-- Models the Python membership test `sub in s` on strings. -/
def pyContains (s sub : String) : Bool := listHasSub sub.data s.data

/-- Split a character list at every occurrence of `sep`
(models Python `str.split(sep)` for a one-character separator:
`"a,b" → ["a","b"]`, `"" → [""]`, `",," → ["","",""]`). -/
def splitChar (sep : Char) : List Char → List (List Char)
  | [] => [[]]
  | c :: cs =>
    let r := splitChar sep cs
    if c == sep then [] :: r
    else
      match r with
      | [] => [[c]]
      | h :: t => (c :: h) :: t

/-- Models Python `str.split(sep)` for a one-character separator. -/
def pySplit (s : String) (sep : Char) : List String :=
  (splitChar sep s.data).map (fun l => ⟨l⟩)

/-- Python whitespace characters (the ASCII ones recognized by `str.strip`). -/
def isPySpace (c : Char) : Bool :=
  c == ' ' || c == '\t' || c == '\n' || c == '\x0d' || c == '\x0b' || c == '\x0c'

/-- Strip Python whitespace from both ends of a character list. -/
def stripList (l : List Char) : List Char :=
  ((l.dropWhile isPySpace).reverse.dropWhile isPySpace).reverse

/-- Models Python `str.strip()`. -/
def pyStrip (s : String) : String := ⟨stripList s.data⟩

/-- Worker for whitespace-run splitting (models Python `str.split()` with no
argument: runs of whitespace separate the words, no empty words). -/
def wsWordsAux : List Char → List Char → List (List Char)
  | [], acc => if acc.isEmpty then [] else [acc.reverse]
  | c :: cs, acc =>
    if isPySpace c then
      if acc.isEmpty then wsWordsAux cs [] else acc.reverse :: wsWordsAux cs []
    else wsWordsAux cs (c :: acc)

/-- Models `len(s.split())` in Python (number of whitespace-separated words). -/
def pyWordCount (s : String) : Nat := (wsWordsAux s.data []).length

/-- Models Python `sep.join(items)`. -/
def joinWith (sep : String) : List String → String
  | [] => ""
  | [x] => x
  | x :: y :: t => x ++ sep ++ joinWith sep (y :: t)

/-- Models Python `s.replace(a, b)` for one-character `a`, `b`. -/
def replaceChar (a b : Char) (s : String) : String :=
  ⟨s.data.map (fun c => if c == a then b else c)⟩

/-- Models Python `s.replace(a, '')` for a one-character `a` (deletion). -/
def replaceCharDel (a : Char) (s : String) : String :=
  ⟨s.data.filter (fun c => !(c == a))⟩

/-- Models Python `s.count(c)` for a one-character argument. -/
def countChar (c : Char) (s : String) : Nat :=
  s.data.countP (fun x => x == c)

/-- ASCII decimal digit test. -/
def isAsciiDigit (c : Char) : Bool := '0' ≤ c && c ≤ '9'

/-- ASCII lowercase letter test. -/
def isLowerAlpha (c : Char) : Bool := 'a' ≤ c && c ≤ 'z'

/-- ASCII uppercase letter test. -/
def isUpperAlpha (c : Char) : Bool := 'A' ≤ c && c ≤ 'Z'

/-- ASCII alphanumeric test. -/
def isAlnumChar (c : Char) : Bool := isAsciiDigit c || isLowerAlpha c || isUpperAlpha c

/-- Models Python `str.isdigit()` (ASCII domain): nonempty and all digits. -/
def pyIsDigit (s : String) : Bool := !s.data.isEmpty && s.data.all isAsciiDigit

/-- Models Python `str.islower()` (ASCII domain): no uppercase cased character
and at least one cased character. -/
def pyIsLower (s : String) : Bool :=
  !s.data.any isUpperAlpha && s.data.any isLowerAlpha

/-- Models Python `str.isalnum()` (ASCII domain): nonempty and all alphanumeric. -/
def pyIsAlnum (s : String) : Bool := !s.data.isEmpty && s.data.all isAlnumChar

/-- Models Python `len(s)` on strings. -/
def pyLen (s : String) : Nat := s.data.length

/-! ## Values of the Python program

`YVal` models the YAML-representable Python values flowing through the
program: strings, ints, booleans, dicts (as insertion-ordered association
lists) and lists. -/

inductive YVal where
  | s (v : String)
  | i (n : Int)
  | b (v : Bool)
  | m (es : List (String × YVal))
  | l (items : List YVal)
  deriving Repr

/-- Lookup in a Python dict modelled as an insertion-ordered association
list: a later binding of the same key overwrites an earlier one. -/
def dictGet (m : List (String × YVal)) (k : String) : Option YVal :=
  m.foldl (fun acc p => if p.1 = k then some p.2 else acc) none

/-- Parse an optionally signed ASCII decimal integer
(models Python `int(str)` after pydantic strips whitespace). -/
def pyToInt (s : String) : Option Int :=
  let t := stripList s.data
  match t with
  | '-' :: ds => if ds.isEmpty || !ds.all isAsciiDigit then none
                 else some (-(⟨ds⟩ : String).toNat!)
  | '+' :: ds => if ds.isEmpty || !ds.all isAsciiDigit then none
                 else some ((⟨ds⟩ : String).toNat!)
  | ds => if ds.isEmpty || !ds.all isAsciiDigit then none
          else some ((⟨ds⟩ : String).toNat!)

/-- Pydantic v1 coercion of an input value into a `str` field. -/
def strOfYVal : YVal → Except String String
  | .s v => .ok v
  | .i n => .ok (toString n)
  | .b true => .ok "True"
  | .b false => .ok "False"
  | _ => .error "str type expected"

/-- Pydantic v1 coercion of an input value into an `int` field. -/
def intOfYVal : YVal → Except String Int
  | .i n => .ok n
  | .b true => .ok 1
  | .b false => .ok 0
  | .s v =>
    match pyToInt v with
    | some n => .ok n
    | none => .error "value is not a valid integer"
  | _ => .error "value is not a valid integer"

/-- Pydantic: a required field that is absent yields the "field required"
error; validators for that field do not run. -/
def requireField (m : List (String × YVal)) (k : String) : Except String YVal :=
  match dictGet m k with
  | some v => .ok v
  | none => .error "field required"

/-- Required `str` field: presence plus `str` coercion. -/
def requireStr (m : List (String × YVal)) (k : String) : Except String String :=
  (requireField m k).bind strOfYVal

/-- Pydantic `values` dict contains a previously declared field only if it
validated successfully. -/
def exceptToOption : Except String String → Option String
  | .ok v => some v
  | .error _ => none

/-! ## Governance data (`app/tools/glue_pr_tool.py` module constants) -/

/-- `VALID_ENTERPRISE_FUNCTIONS` of `glue_pr_tool.py` (code → display name). -/
def VALID_ENTERPRISE_FUNCTIONS : List (String × String) :=
  [("AGTR", "Ag & Trading"), ("CORP", "Corporate"),
   ("FOOD", "Food"), ("SPEC", "Specialized Portfolio")]

/-- Display name of an enterprise function code
(source indexes `VALID_ENTERPRISE_FUNCTIONS[code]`; default unused). -/
def funcDescr (f : String) : String :=
  (VALID_ENTERPRISE_FUNCTIONS.foldl
    (fun acc p => if p.1 = f then some p.2 else acc) none).getD ""

/-- Membership of a code in `VALID_ENTERPRISE_FUNCTIONS` (Python `in` on the
dict keys). -/
def isValidEnterpriseFunction (f : String) : Bool :=
  VALID_ENTERPRISE_FUNCTIONS.any (fun p => p.1 == f)

/-- `VALID_SUBGROUPS` of `glue_pr_tool.py`; the source reads it with
`.get(enterprise_func, [])`, hence the `[]` default here. -/
def VALID_SUBGROUPS (f : String) : List String :=
  if f = "AGTR" then
    ["EMEA", "NA", "LATAM", "APAC", "WTG", "WTG_CDAS", "OT", "CRM", "TCM", "MET"]
  else if f = "CORP" then
    ["GI_SUST", "EHS", "FIN", "GTC", "CPT", "HR", "AUDIT", "DTD", "LAW",
     "DTD_DPE", "RMG", "FSQR"]
  else if f = "FOOD" then
    ["FSGL", "FS_NA", "FS_LATAM", "FS_APAC", "FS_EMEA", "PRGL", "PR_LATAM",
     "PR_NA", "PR_APAC", "SALT", "CE", "RD"]
  else if f = "SPEC" then
    ["ANH", "CBI", "DS"]
  else []

/-- `SUBGROUP_DESCRIPTIONS` of `glue_pr_tool.py`. -/
def SUBGROUP_DESCRIPTIONS : List (String × String) :=
  [("EMEA", "Ag & Trading / EMEA"),
   ("NA", "Ag & Trading / NA"),
   ("LATAM", "Ag & Trading / LATAM"),
   ("APAC", "Ag & Trading / APAC"),
   ("WTG", "Ag & Trading / World Trading Group (WTG)"),
   ("WTG_CDAS", "Ag & Trading / World Trading Group (WTG) - Cargill Data Asset Solution (CDAS)"),
   ("OT", "Ag & Trading / Ocean Transportation"),
   ("CRM", "Ag & Trading / CRM (Cargill Risk Management)"),
   ("TCM", "Ag & Trading / Trade & Capital Markets (TCM)"),
   ("MET", "Ag & Trading / Metals"),
   ("GI_SUST", "Corporate / Global Impact - Sustainability"),
   ("EHS", "Corporate / Environment, Health & Safety (EHS)"),
   ("FIN", "Corporate / Finance"),
   ("GTC", "Corporate / Global Trade Compliance"),
   ("CPT", "Corporate / Procurement & Transportation"),
   ("HR", "Corporate / Human Resources"),
   ("AUDIT", "Corporate / Audit"),
   ("DTD", "Corporate / Digital Technology & Data"),
   ("LAW", "Corporate / Law"),
   ("DTD_DPE", "Corporate / Digital Technology & Data - Data Platforms & Engineering"),
   ("RMG", "Corporate / Risk Management Group"),
   ("FSQR", "Corporate / Food Safety, Quality & Regulatory"),
   ("FSGL", "Food / Food Solutions - All Regions - Global"),
   ("FS_NA", "Food / Food Solutions - NA"),
   ("FS_LATAM", "Food / Food Solutions - LATAM"),
   ("FS_APAC", "Food / Food Solutions - APAC"),
   ("FS_EMEA", "Food / Food Solutions - EMEA"),
   ("PRGL", "Food / Protein - All Regions - Global"),
   ("PR_LATAM", "Food / Protein - LATAM"),
   ("PR_NA", "Food / Protein - NA"),
   ("PR_APAC", "Food / Protein - APAC"),
   ("SALT", "Food / Salt"),
   ("CE", "Food / Commercial Excellence"),
   ("RD", "Food / R&D (Research & Development)"),
   ("ANH", "Specialized Portfolio / Animal Nutrition"),
   ("CBI", "Specialized Portfolio / Bioindustrial (CBI)"),
   ("DS", "Specialized Portfolio / Deicing Solution")]

/-- `SUBGROUP_DESCRIPTIONS.get(sg, sg)` of the source. -/
def subgroupDescr (sg : String) : String :=
  (SUBGROUP_DESCRIPTIONS.foldl
    (fun acc p => if p.1 = sg then some p.2 else acc) none).getD sg

/-- `VALID_ENVIRONMENTS` of `glue_pr_tool.py`. -/
def VALID_ENVIRONMENTS : List String := ["dev", "prd"]

/-- `VALID_DATA_LAYERS` of `glue_pr_tool.py`. -/
def GLUE_VALID_DATA_LAYERS : List String := ["raw", "cln"]

/-! ## `GlueDBPRInput` (`app/tools/glue_pr_tool.py`) -/

/-- A validated Glue database record: the fields of `GlueDBPRInput`, holding
the values as the validators returned them (normalized where a validator
normalizes). -/
structure GlueDBPRInput where
  intake_id : String
  database_name : String
  database_s3_location : String
  database_description : String
  aws_account_id : String
  source_name : String
  enterprise_or_func_name : String
  enterprise_or_func_subgrp_name : String
  region : String
  data_construct : String
  data_env : String
  data_layer : String
  data_leader : String
  data_owner_email : String
  data_owner_github_uname : String
  deriving Repr, DecidableEq

namespace GlueDBPRInput

/-- `validate_database_name`: the name must start with `minerva`
(case-insensitively). -/
def validate_database_name (v : String) : Except String String :=
  if !(pyStartsWith (pyLower v) "minerva") then
    .error ("Database name must start with 'minerva' (case-insensitive). Got: '"
            ++ v ++ "'")
  else .ok v

/-- `validate_s3_location`: the S3 path must start with `s3://`. -/
def validate_s3_location (v : String) : Except String String :=
  if !(pyStartsWith v "s3://") then .error "S3 path must start with 's3://'"
  else .ok v

/-- `validate_aws_account`: exactly 12 decimal digits. -/
def validate_aws_account (v : String) : Except String String :=
  if !(pyIsDigit v) || pyLen v ≠ 12 then
    .error "AWS account ID must be exactly 12 digits"
  else .ok v

/-- `validate_email`: must contain `@` and a dot in the part after the first
`@` (the source checks `"." not in v.split("@")[1]`). -/
def validate_email (v : String) : Except String String :=
  if !(pyContains v "@") then
    .error "Invalid email format. Must contain '@' and a domain"
  else
    let domainPart := ((pySplit v '@').drop 1).headD ""
    if !(pyContains domainPart ".") then
      .error "Invalid email format. Must contain '@' and a domain"
    else .ok v

/-- `validate_enterprise_function`: upper-case, then membership in
`VALID_ENTERPRISE_FUNCTIONS`; returns the upper-cased code. -/
def validate_enterprise_function (v : String) : Except String String :=
  let vU := pyUpper v
  if !(isValidEnterpriseFunction vU) then
    .error ("Invalid enterprise function '" ++ v ++ "'. Must be one of: "
      ++ joinWith ", " (VALID_ENTERPRISE_FUNCTIONS.map (·.1))
      ++ "\n\nValid values:\n"
      ++ joinWith "\n"
          (VALID_ENTERPRISE_FUNCTIONS.map (fun p => "  - " ++ p.1 ++ ": " ++ p.2)))
  else .ok vU

/-- `validate_subgroup`: the sub-group (upper-cased) must be a member of
`VALID_SUBGROUPS` for the already-validated enterprise function; `funcVal`
models pydantic's `values.get("enterprise_or_func_name")`, which is `None`
when that earlier field was absent or failed validation. -/
def validate_subgroup (funcVal : Option String) (v : String) : Except String String :=
  match funcVal with
  | none => .error "Enterprise function must be set before subgroup"
  | some f =>
    let vU := pyUpper v
    if !((VALID_SUBGROUPS f).contains vU) then
      .error ("Invalid subgroup '" ++ v ++ "' for enterprise function '" ++ f
        ++ "'.\n\nValid subgroups for " ++ f ++ " (" ++ funcDescr f ++ "):\n"
        ++ joinWith "\n"
            ((VALID_SUBGROUPS f).map (fun sg => "  - " ++ sg ++ ": " ++ subgroupDescr sg)))
    else .ok vU

/-- `validate_environment`: lower-case, then membership in `dev`/`prd`;
returns the lower-cased value. -/
def validate_environment (v : String) : Except String String :=
  let vL := pyLower v
  if !(VALID_ENVIRONMENTS.contains vL) then
    .error ("Invalid environment '" ++ v ++ "'. Must be one of: "
            ++ joinWith ", " VALID_ENVIRONMENTS)
  else .ok vL

/-- `validate_data_layer`: lower-case, then membership in `raw`/`cln`;
returns the lower-cased value. -/
def validate_data_layer (v : String) : Except String String :=
  let vL := pyLower v
  if !(GLUE_VALID_DATA_LAYERS.contains vL) then
    .error ("Invalid data layer '" ++ v ++ "'. Must be one of: "
            ++ joinWith ", " GLUE_VALID_DATA_LAYERS
            ++ " (raw = raw data, cln = cleaned/curated data)")
  else .ok vL

/-- `validate_region`: non-empty and at least 9 characters. -/
def validate_region (v : String) : Except String String :=
  if v = "" || pyLen v < 9 then
    .error ("Invalid AWS region format '" ++ v
      ++ "'. Expected format like 'us-east-1'. Common regions: "
      ++ joinWith ", " ["us-east-1", "us-east-2", "us-west-1", "us-west-2", "eu-west-1"])
  else .ok v

end GlueDBPRInput

/-- One `(field, message)` entry when a field's result is an error. -/
def errOf (name : String) (r : Except String α) : Option (String × String) :=
  match r with
  | .error e => some (name, e)
  | .ok _ => none

/-- The value of a field result, or the type's default when it failed (only
read under the guard that no field failed). -/
def okDA [Inhabited α] : Except String α → α
  | .ok v => v
  | .error _ => default

/-- `GlueDBPRInput(**m)`: pydantic validates the fields in declaration
order, running each field's `@validator` on the coerced value; the
sub-group validator reads the enterprise function from `values`, which
holds it only if it validated successfully.  Construction succeeds with the
record of validated values when no field has an error; otherwise it raises
`ValidationError` carrying one `(field, message)` entry per failing field,
in declaration order. -/
def mkGlueDBPRInput (m : List (String × YVal)) :
    Except (List (String × String)) GlueDBPRInput :=
  let rIntake := requireStr m "intake_id"
  let rName := (requireStr m "database_name").bind GlueDBPRInput.validate_database_name
  let rLoc := (requireStr m "database_s3_location").bind GlueDBPRInput.validate_s3_location
  let rDesc := requireStr m "database_description"
  let rAcct := (requireStr m "aws_account_id").bind GlueDBPRInput.validate_aws_account
  let rSrc := requireStr m "source_name"
  let rFunc := (requireStr m "enterprise_or_func_name").bind
      GlueDBPRInput.validate_enterprise_function
  let rSub := (requireStr m "enterprise_or_func_subgrp_name").bind
      (GlueDBPRInput.validate_subgroup (exceptToOption rFunc))
  let rRegion := (requireStr m "region").bind GlueDBPRInput.validate_region
  let rConstruct := requireStr m "data_construct"
  let rEnv := (requireStr m "data_env").bind GlueDBPRInput.validate_environment
  let rLayer := (requireStr m "data_layer").bind GlueDBPRInput.validate_data_layer
  let rLeader := requireStr m "data_leader"
  let rEmail := (requireStr m "data_owner_email").bind GlueDBPRInput.validate_email
  let rUname := requireStr m "data_owner_github_uname"
  let errs :=
    [errOf "intake_id" rIntake, errOf "database_name" rName,
     errOf "database_s3_location" rLoc, errOf "database_description" rDesc,
     errOf "aws_account_id" rAcct, errOf "source_name" rSrc,
     errOf "enterprise_or_func_name" rFunc,
     errOf "enterprise_or_func_subgrp_name" rSub, errOf "region" rRegion,
     errOf "data_construct" rConstruct, errOf "data_env" rEnv,
     errOf "data_layer" rLayer, errOf "data_leader" rLeader,
     errOf "data_owner_email" rEmail,
     errOf "data_owner_github_uname" rUname].reduceOption
  if errs.isEmpty then
    .ok { intake_id := okDA rIntake, database_name := okDA rName,
          database_s3_location := okDA rLoc, database_description := okDA rDesc,
          aws_account_id := okDA rAcct, source_name := okDA rSrc,
          enterprise_or_func_name := okDA rFunc,
          enterprise_or_func_subgrp_name := okDA rSub, region := okDA rRegion,
          data_construct := okDA rConstruct, data_env := okDA rEnv,
          data_layer := okDA rLayer, data_leader := okDA rLeader,
          data_owner_email := okDA rEmail,
          data_owner_github_uname := okDA rUname }
  else .error errs

/-! ## `S3BucketPRInput` (`app/tools/s3_pr_tool.py`) -/

/-- A validated S3 bucket record: the fields of `S3BucketPRInput`. -/
structure S3BucketPRInput where
  intake_id : String
  bucket_name : String
  bucket_description : String
  aws_account_id : String
  aws_region : String
  usage_type : String
  enterprise_or_func_name : String
  deriving Repr, DecidableEq

namespace S3BucketPRInput

/-- Character class `[a-z0-9]` of the bucket-name regex. -/
def isBucketEdge (c : Char) : Bool := isLowerAlpha c || isAsciiDigit c

/-- Character class `[a-z0-9.-]` of the bucket-name regex. -/
def isBucketMid (c : Char) : Bool := isBucketEdge c || c == '.' || c == '-'

/-- Full match of `^[a-z0-9][a-z0-9.-]*[a-z0-9]$` (needs length ≥ 2). -/
def matchesBucketRegex (s : String) : Bool :=
  match s.data with
  | [] => false
  | c :: rest =>
    match rest.reverse with
    | [] => false
    | lastC :: midRev => isBucketEdge c && isBucketEdge lastC && midRev.all isBucketMid

/-- Full match of `^\d+\.\d+\.\d+\.\d+$`: four dot-separated nonempty digit
runs. -/
def looksLikeIP (s : String) : Bool :=
  match pySplit s '.' with
  | [a, b, c, d] => pyIsDigit a && pyIsDigit b && pyIsDigit c && pyIsDigit d
  | _ => false

/-- `validate_bucket_name` of `s3_pr_tool.py`: AWS bucket naming rules,
checked in the order of the source, returning `v.lower()` on success. -/
def validate_bucket_name (v : String) : Except String String :=
  if !(matchesBucketRegex v) then
    .error ("Bucket name '" ++ v ++ "' is invalid. Must:\n- Be lowercase\n"
      ++ "- Contain only letters, numbers, hyphens, and dots\n"
      ++ "- Start and end with a letter or number")
  else if pyLen v < 3 || pyLen v > 63 then
    .error ("Bucket name must be between 3 and 63 characters. Got "
            ++ toString (pyLen v) ++ " characters.")
  else if pyContains v "_" then
    .error "Bucket name cannot contain underscores. Use hyphens (-) instead."
  else if pyContains v ".." then
    .error "Bucket name cannot contain consecutive dots (..)."
  else if looksLikeIP v then
    .error "Bucket name cannot be formatted as an IP address."
  else .ok (pyLower v)

/-- `validate_aws_account` of `s3_pr_tool.py`. -/
def validate_aws_account (v : String) : Except String String :=
  if !(pyIsDigit v) || pyLen v ≠ 12 then
    .error "AWS account ID must be exactly 12 digits"
  else .ok v

/-- The `valid_regions` list of `s3_pr_tool.py`'s `validate_region`. -/
def s3ValidRegions : List String :=
  ["us-east-1", "us-east-2", "us-west-1", "us-west-2",
   "eu-west-1", "eu-west-2", "eu-west-3", "eu-central-1",
   "ap-southeast-1", "ap-southeast-2", "ap-northeast-1", "ap-northeast-2",
   "ap-south-1", "sa-east-1", "ca-central-1"]

/-- `validate_region` of `s3_pr_tool.py`: membership in `valid_regions`. -/
def validate_region (v : String) : Except String String :=
  if !(s3ValidRegions.contains v) then
    .error ("Invalid or uncommon AWS region '" ++ v ++ "'.\nCommon regions: "
            ++ joinWith ", " (s3ValidRegions.take 8))
  else .ok v

/-- `validate_enterprise_function` of `s3_pr_tool.py` (same rule and message
as the Glue one, defined on its own `VALID_ENTERPRISE_FUNCTIONS` copy which
has the same entries). -/
def validate_enterprise_function (v : String) : Except String String :=
  let vU := pyUpper v
  if !(isValidEnterpriseFunction vU) then
    .error ("Invalid enterprise function '" ++ v ++ "'. Must be one of: "
      ++ joinWith ", " (VALID_ENTERPRISE_FUNCTIONS.map (·.1))
      ++ "\n\nValid values:\n"
      ++ joinWith "\n"
          (VALID_ENTERPRISE_FUNCTIONS.map (fun p => "  - " ++ p.1 ++ ": " ++ p.2)))
  else .ok vU

end S3BucketPRInput

/-- `S3BucketPRInput(**m)`, in the same per-field style. -/
def mkS3BucketPRInput (m : List (String × YVal)) :
    Except (List (String × String)) S3BucketPRInput :=
  let rIntake := requireStr m "intake_id"
  let rName := (requireStr m "bucket_name").bind S3BucketPRInput.validate_bucket_name
  let rDesc := requireStr m "bucket_description"
  let rAcct := (requireStr m "aws_account_id").bind S3BucketPRInput.validate_aws_account
  let rRegion := (requireStr m "aws_region").bind S3BucketPRInput.validate_region
  let rUsage := requireStr m "usage_type"
  let rFunc := (requireStr m "enterprise_or_func_name").bind
      S3BucketPRInput.validate_enterprise_function
  let errs :=
    [errOf "intake_id" rIntake, errOf "bucket_name" rName,
     errOf "bucket_description" rDesc, errOf "aws_account_id" rAcct,
     errOf "aws_region" rRegion, errOf "usage_type" rUsage,
     errOf "enterprise_or_func_name" rFunc].reduceOption
  if errs.isEmpty then
    .ok { intake_id := okDA rIntake, bucket_name := okDA rName,
          bucket_description := okDA rDesc, aws_account_id := okDA rAcct,
          aws_region := okDA rRegion, usage_type := okDA rUsage,
          enterprise_or_func_name := okDA rFunc }
  else .error errs

/-! ## `IAMRolePRInput` (`app/tools/iam_role_tool.py`) -/

/-- Nested model `AccessToResources` (all three sub-fields optional with
`None` default). `glue_databases : Dict[str, List[str]]`,
`execution_asset_prefixes : List[str]`, `glue_crawler : List[Any]` — the
`Any` payloads are modelled as `YVal`. -/
structure AccessToResources where
  glue_databases : Option (List (String × List String)) := none
  execution_asset_prefixes : Option (List String) := none
  glue_crawler : Option (List YVal) := none
  deriving Repr, Inhabited

/-- Nested model `GlueJobAccessConfigs`. -/
structure GlueJobAccessConfigs where
  enable_glue_jobs : Bool := false
  secret_region : Option String := none
  secret_name : Option String := none
  job_control_configs : Option (List String) := none
  deriving Repr, Inhabited

/-- A validated IAM role record: the fields of `IAMRolePRInput`. -/
structure IAMRolePRInput where
  intake_id : String
  role_name : String
  role_description : String
  aws_account_id : String
  enterprise_or_func_name : String
  enterprise_or_func_subgrp_name : String
  role_owner : String
  data_env : String
  usage_type : String
  compute_size : String
  max_session_duration : Int
  access_to_resources : AccessToResources
  glue_crawler : Option (List YVal) := none
  glue_job_access_configs : Option GlueJobAccessConfigs := none
  athena : Option (List (String × YVal)) := none
  deriving Repr, Inhabited

/-- Pydantic v1 coercion into a `bool` field. -/
def boolOfYVal : YVal → Except String Bool
  | .b v => .ok v
  | .i n => if n = 0 then .ok false
            else if n = 1 then .ok true
            else .error "value could not be parsed to a boolean"
  | .s v =>
    let vL := pyLower v
    if ["true", "yes", "on", "1"].contains vL then .ok true
    else if ["false", "no", "off", "0"].contains vL then .ok false
    else .error "value could not be parsed to a boolean"
  | _ => .error "value could not be parsed to a boolean"

/-- Pydantic coercion into a `List[str]` field. -/
def strListOfYVal : YVal → Except String (List String)
  | .l items => items.mapM strOfYVal
  | _ => .error "value is not a valid list"

/-- Pydantic coercion into a `Dict[str, List[str]]` field. -/
def strListDictOfYVal : YVal → Except String (List (String × List String))
  | .m es => es.mapM (fun p => (strListOfYVal p.2).map (fun l => (p.1, l)))
  | _ => .error "value is not a valid dict"

/-- An optional field: absent means `None`; present values are coerced. -/
def optField (m : List (String × YVal)) (k : String)
    (coerce : YVal → Except String α) : Except String (Option α) :=
  match dictGet m k with
  | none => .ok none
  | some v => (coerce v).map some

/-- Pydantic construction of the nested `AccessToResources` model from an
input value (must be a dict). -/
def mkAccessToResources : YVal → Except String AccessToResources
  | .m es => do
    let gd ← optField es "glue_databases" strListDictOfYVal
    let ep ← optField es "execution_asset_prefixes" strListOfYVal
    let gc ← optField es "glue_crawler"
      (fun v => match v with
        | .l items => .ok items
        | _ => .error "value is not a valid list")
    .ok { glue_databases := gd, execution_asset_prefixes := ep, glue_crawler := gc }
  | _ => .error "value is not a valid dict"

/-- Pydantic construction of the nested `GlueJobAccessConfigs` model. -/
def mkGlueJobAccessConfigs : YVal → Except String GlueJobAccessConfigs
  | .m es => do
    let egj ← match dictGet es "enable_glue_jobs" with
      | none => pure false
      | some v => boolOfYVal v
    let sr ← optField es "secret_region" strOfYVal
    let sn ← optField es "secret_name" strOfYVal
    let jcc ← optField es "job_control_configs" strListOfYVal
    .ok { enable_glue_jobs := egj, secret_region := sr, secret_name := sn,
          job_control_configs := jcc }
  | _ => .error "value is not a valid dict"

namespace IAMRolePRInput

/-- `aws_account_valid` (note: message differs from the Glue tool's). -/
def aws_account_valid (v : String) : Except String String :=
  if !(pyIsDigit v) || pyLen v ≠ 12 then .error "AWS account ID must be 12 digits"
  else .ok v

/-- `email_valid`: only an `@` check. -/
def email_valid (v : String) : Except String String :=
  if !(pyContains v "@") then .error "Invalid email format" else .ok v

/-- `session_duration_valid`: `1 ≤ v ≤ 12`. -/
def session_duration_valid (v : Int) : Except String Int :=
  if v < 1 || v > 12 then
    .error "Max session duration must be between 1 and 12 hours"
  else .ok v

end IAMRolePRInput

/-- `IAMRolePRInput(**m)`: every mandatory field present and coerced, the
three `@validator`s applied, the three optional fields defaulting to `None`;
field errors collected in declaration order.  Note: `IAMRolePRInput` has
no validator at all for `enterprise_or_func_name` /
`enterprise_or_func_subgrp_name` (unlike `GlueDBPRInput`). -/
def mkIAMRolePRInput (m : List (String × YVal)) :
    Except (List (String × String)) IAMRolePRInput :=
  let rIntake := requireStr m "intake_id"
  let rRoleName := requireStr m "role_name"
  let rRoleDesc := requireStr m "role_description"
  let rAcct := (requireStr m "aws_account_id").bind IAMRolePRInput.aws_account_valid
  let rFunc := requireStr m "enterprise_or_func_name"
  let rSub := requireStr m "enterprise_or_func_subgrp_name"
  let rOwner := (requireStr m "role_owner").bind IAMRolePRInput.email_valid
  let rEnv := requireStr m "data_env"
  let rUsage := requireStr m "usage_type"
  let rCompute := requireStr m "compute_size"
  let rDuration := ((requireField m "max_session_duration").bind intOfYVal).bind
      IAMRolePRInput.session_duration_valid
  let rAccess := (requireField m "access_to_resources").bind mkAccessToResources
  let rCrawler := optField m "glue_crawler"
    (fun v => match v with
      | .l items => .ok items
      | _ => .error "value is not a valid list")
  let rJobCfg := optField m "glue_job_access_configs" mkGlueJobAccessConfigs
  let rAthena := optField m "athena"
    (fun v => match v with
      | .m es => .ok es
      | _ => .error "value is not a valid dict")
  let errs :=
    [errOf "intake_id" rIntake, errOf "role_name" rRoleName,
     errOf "role_description" rRoleDesc, errOf "aws_account_id" rAcct,
     errOf "enterprise_or_func_name" rFunc,
     errOf "enterprise_or_func_subgrp_name" rSub,
     errOf "role_owner" rOwner, errOf "data_env" rEnv,
     errOf "usage_type" rUsage, errOf "compute_size" rCompute,
     errOf "max_session_duration" rDuration,
     errOf "access_to_resources" rAccess,
     errOf "glue_crawler" rCrawler,
     errOf "glue_job_access_configs" rJobCfg,
     errOf "athena" rAthena].reduceOption
  if errs.isEmpty then
    .ok { intake_id := okDA rIntake, role_name := okDA rRoleName,
          role_description := okDA rRoleDesc, aws_account_id := okDA rAcct,
          enterprise_or_func_name := okDA rFunc,
          enterprise_or_func_subgrp_name := okDA rSub,
          role_owner := okDA rOwner, data_env := okDA rEnv,
          usage_type := okDA rUsage, compute_size := okDA rCompute,
          max_session_duration := okDA rDuration,
          access_to_resources := okDA rAccess,
          glue_crawler := okDA rCrawler,
          glue_job_access_configs := okDA rJobCfg,
          athena := okDA rAthena }
  else .error errs

/-! ## YAML serialization model (`app/services/yaml_generator.py` and
`yaml.safe_load`)

The spec (§1) treats artifact serialization as an external collaborator: a
pure function `record → serialized text`.  The source realizes it with
PyYAML's `yaml.dump(data, sort_keys=False, default_flow_style=False,
indent=2)` and reads text back with `yaml.safe_load`.  The pair is modelled
here concretely: block-style output, insertion order preserved, two-space
indentation for nested mappings, sequence dashes at the parent key's column
(PyYAML's default), scalars emitted plain when unambiguous and
double-quoted with escapes otherwise — style choices within the library's
format that keep `load` a left inverse of `dump`, which is the library
behaviour the source relies on.  Sequence elements are modelled as scalars
(the record shapes produced by the tools only put strings inside lists). -/

/-- Decimal digit character of `d` (defined by cases so proofs can reduce). -/
def digitChar : Nat → Char
  | 0 => '0' | 1 => '1' | 2 => '2' | 3 => '3' | 4 => '4'
  | 5 => '5' | 6 => '6' | 7 => '7' | 8 => '8' | _ => '9'

/-- Numeric value of a decimal digit character. -/
def digitVal (c : Char) : Nat := c.toNat - '0'.toNat

/-- Most-significant-first decimal digits of a positive number prepended to
`acc`. -/
def natDigitsCore : Nat → List Char → List Char
  | 0, acc => acc
  | n + 1, acc => natDigitsCore ((n + 1) / 10) (digitChar ((n + 1) % 10) :: acc)
  decreasing_by exact Nat.div_lt_self (Nat.succ_pos n) (by omega)

/-- Decimal digits of a natural number. -/
def natDigits (n : Nat) : List Char :=
  if n = 0 then ['0'] else natDigitsCore n []

/-- Decimal text of an integer (models Python `str(int)`). -/
def intText : Int → List Char
  | .ofNat n => natDigits n
  | .negSucc n => '-' :: natDigits (n + 1)

/-- Parse most-significant-first decimal digits. -/
def natFromDigits (l : List Char) : Nat :=
  l.foldl (fun a c => a * 10 + digitVal c) 0

/-- Exact decimal-integer shape: optional minus sign then nonempty digits
(what the loader resolves as an integer). -/
def plainIsInt : List Char → Bool
  | '-' :: ds => !ds.isEmpty && ds.all isAsciiDigit
  | ds => !ds.isEmpty && ds.all isAsciiDigit

/-- Integer value of a `plainIsInt` text. -/
def intFromPlain : List Char → Int
  | '-' :: ds => -(natFromDigits ds : Int)
  | ds => (natFromDigits ds : Int)

/-- Characters a plain (unquoted) scalar may consist of in this model. -/
def isPlainChar (c : Char) : Bool :=
  isAlnumChar c || c == ' ' || c == '_' || c == '-' || c == '.' || c == '/'
    || c == '@' || c == ':'

/-- A string value the dumper may emit unquoted: nonempty, plain characters
only, no edge spaces, no `": "`, no trailing `:`, and not something the
loader would resolve as an integer or boolean. -/
def plainSafeVal (s : String) : Bool :=
  let l := s.data
  !l.isEmpty && l.all isPlainChar
    && !(l.headD ' ' == ' ') && !(l.getLastD ' ' == ' ')
    && !(listHasSub [':', ' '] l) && !(l.getLastD ' ' == ':')
    && !(plainIsInt l) && !(s == "true") && !(s == "false")

/-- A key the dumper may emit unquoted: nonempty, plain characters without
`:` or space issues, starting with a letter, digit or underscore. -/
def plainSafeKey (s : String) : Bool :=
  let l := s.data
  !l.isEmpty && l.all (fun c => isPlainChar c && !(c == ':'))
    && (isAlnumChar (l.headD ' ') || l.headD ' ' == '_')
    && !(l.getLastD ' ' == ' ')

/-- Escape for double-quoted style. -/
def escChar : Char → List Char
  | '\\' => ['\\', '\\']
  | '"' => ['\\', '"']
  | '\n' => ['\\', 'n']
  | c => [c]

/-- Double-quoted rendering of a string. -/
def dquoteText (s : String) : List Char :=
  '"' :: s.data.flatMap escChar ++ ['"']

/-- Rendered text of a scalar (maps/lists only occur here for sequence
elements outside the modelled shapes; they render as empty flow forms). -/
def scalarTextD : YVal → List Char
  | .s v => if plainSafeVal v then v.data else dquoteText v
  | .i n => intText n
  | .b true => "true".data
  | .b false => "false".data
  | .m _ => ['\x7b', '\x7d']
  | .l _ => ['[', ']']

/-- Rendered text of a mapping key. -/
def keyText (k : String) : List Char :=
  if plainSafeKey k then k.data else dquoteText k

/-- `ind` spaces. -/
def mkIndent (ind : Nat) : List Char := List.replicate ind ' '

/-- Scalar YVal test. -/
def isScalar : YVal → Bool
  | .s _ => true
  | .i _ => true
  | .b _ => true
  | _ => false

mutual

/-- The value shapes covered by the serialization model: sequences hold
scalars only (true of every artifact the tools construct). -/
def goodVal : YVal → Bool
  | .s _ => true
  | .i _ => true
  | .b _ => true
  | .m es => goodEntriesB es
  | .l items => items.all isScalar

/-- `goodVal` on every value of an entry list. -/
def goodEntriesB : List (String × YVal) → Bool
  | [] => true
  | e :: es => goodVal e.2 && goodEntriesB es

end

mutual

/-- Lines of one mapping entry at indentation `ind`. -/
def entryLines (ind : Nat) (k : String) : YVal → List (List Char)
  | .m [] => [mkIndent ind ++ keyText k ++ (':' :: ' ' :: ['\x7b', '\x7d'])]
  | .l [] => [mkIndent ind ++ keyText k ++ (':' :: ' ' :: ['[', ']'])]
  | .m (e :: es) => (mkIndent ind ++ keyText k ++ [':']) :: dumpEntries (ind + 2) (e :: es)
  | .l (x :: xs) =>
    (mkIndent ind ++ keyText k ++ [':']) ::
      (x :: xs).map (fun v => mkIndent ind ++ '-' :: ' ' :: scalarTextD v)
  | v => [mkIndent ind ++ keyText k ++ (':' :: ' ' :: scalarTextD v)]

/-- Lines of a block mapping at indentation `ind`. -/
def dumpEntries (ind : Nat) : List (String × YVal) → List (List Char)
  | [] => []
  | e :: es => entryLines ind e.1 e.2 ++ dumpEntries ind es

end

/-- The serialized text: each line followed by a newline (PyYAML output ends
with a final newline). -/
def joinNl : List (List Char) → List Char
  | [] => []
  | l :: ls => l ++ '\n' :: joinNl ls

/-- `generate_yaml` (`app/services/yaml_generator.py`): dictionary → YAML
text, insertion order preserved, block style, 2-space indent. -/
def generate_yaml (data : List (String × YVal)) : String :=
  ⟨joinNl (dumpEntries 0 data)⟩

/-! ### The loader -/

/-- Leading-space count of a line. -/
def indentOf (l : List Char) : Nat := (l.takeWhile (· == ' ')).length

/-- The line after its indentation. -/
def lineContent (l : List Char) : List Char := l.dropWhile (· == ' ')

/-- Does the content open a block-sequence element? -/
def startsDash (content : List Char) : Bool := listStarts ['-', ' '] content

/-- Unescape one double-quoted escape character. -/
def unescChar : Char → Option Char
  | '\\' => some '\\'
  | '"' => some '"'
  | 'n' => some '\n'
  | _ => none

/-- Body of a double-quoted scalar after the opening quote: returns the
unescaped value and the remainder after the closing quote. -/
def dqBody : List Char → Option (List Char × List Char)
  | [] => none
  | '\\' :: [] => none
  | '\\' :: c :: t =>
    match unescChar c with
    | some u => (dqBody t).map (fun p => (u :: p.1, p.2))
    | none => none
  | '"' :: t => some ([], t)
  | c :: t => (dqBody t).map (fun p => (c :: p.1, p.2))

/-- Parse a full double-quoted token. -/
def parseDQ : List Char → Option (List Char × List Char)
  | '"' :: t => dqBody t
  | _ => none

/-- Plain-scalar resolution: integers, booleans, else a string. -/
def parsePlainText (u : List Char) : YVal :=
  if plainIsInt u then .i (intFromPlain u)
  else if u = "true".data then .b true
  else if u = "false".data then .b false
  else .s ⟨u⟩

/-- Resolve a non-flow scalar token: double-quoted strings, else plain
resolution. -/
def parseScalarCore : List Char → Option YVal
  | '"' :: t =>
    match dqBody t with
    | some (v, []) => some (.s ⟨v⟩)
    | _ => none
  | u => some (parsePlainText u)

/-- Resolve a scalar token: flow empties, double-quoted strings, integers,
booleans, else a plain string. -/
def parseScalarText (txt : List Char) : Option YVal :=
  if txt = ['\x7b', '\x7d'] then some (.m [])
  else if txt = ['[', ']'] then some (.l [])
  else parseScalarCore txt

/-- Split an unquoted content line at its first colon. -/
def parseKeyPlain (content : List Char) : Option (String × List Char) :=
  let k := content.takeWhile (fun c => !(c == ':'))
  match content.dropWhile (fun c => !(c == ':')) with
  | ':' :: after => some (⟨k⟩, after)
  | _ => none

/-- Split a content line into its key and what follows the key's colon. -/
def parseKeyFrom : List Char → Option (String × List Char)
  | '"' :: t =>
    match dqBody t with
    | some (k, ':' :: after) => some (⟨k⟩, after)
    | _ => none
  | content => parseKeyPlain content

/-- Parse consecutive block-sequence elements at indentation `ind`. -/
def parseItems (ind : Nat) : List (List Char) → Option (List YVal × List (List Char))
  | [] => some ([], [])
  | l :: rest =>
    if l.isEmpty || indentOf l ≠ ind || !(startsDash (lineContent l)) then
      some ([], l :: rest)
    else
      match parseScalarText ((lineContent l).drop 2) with
      | some v => (parseItems ind rest).map (fun p => (v :: p.1, p.2))
      | none => none

/-- Parse consecutive mapping entries at indentation `ind`; `fuel` bounds
the recursion (the number of input lines suffices). -/
def parseEntries (fuel : Nat) (ind : Nat) (lines : List (List Char)) :
    Option (List (String × YVal) × List (List Char)) :=
  match fuel with
  | 0 =>
    match lines with
    | [] => some ([], [])
    | _ => none
  | f + 1 =>
    match lines with
    | [] => some ([], [])
    | l :: rest =>
      if l.isEmpty || indentOf l ≠ ind || startsDash (lineContent l) then
        some ([], l :: rest)
      else
        match parseKeyFrom (lineContent l) with
        | none => none
        | some (k, after) =>
          match after with
          | ' ' :: valTxt =>
            match parseScalarText valTxt with
            | none => none
            | some v =>
              match parseEntries f ind rest with
              | none => none
              | some (es, rest') => some ((k, v) :: es, rest')
          | [] =>
            match rest with
            | [] => none
            | l2 :: _ =>
              if !(l2.isEmpty) && indentOf l2 = ind + 2
                  && !(startsDash (lineContent l2)) then
                match parseEntries f (ind + 2) rest with
                | none => none
                | some (es2, rest2) =>
                  match parseEntries f ind rest2 with
                  | none => none
                  | some (es, rest') => some ((k, .m es2) :: es, rest')
              else if !(l2.isEmpty) && indentOf l2 = ind
                  && startsDash (lineContent l2) then
                match parseItems ind rest with
                | none => none
                | some (items, rest2) =>
                  match parseEntries f ind rest2 with
                  | none => none
                  | some (es, rest') => some ((k, .l items) :: es, rest')
              else none
          | _ => none

/-- Model of `yaml.safe_load` restricted to documents of the dumped shape:
succeeds exactly when the whole text is one block mapping. -/
def safeLoadDict (text : String) : Option (List (String × YVal)) :=
  let lines := splitChar '\n' text.data
  match parseEntries lines.length 0 lines with
  | some (es, rest) =>
    if rest.all List.isEmpty && !es.isEmpty then some es else none
  | none => none

/-! ## Artifact dictionaries (`create_*_yaml`) -/

/-- `create_glue_db_yaml` (`glue_pr_tool.py`): the Glue artifact dictionary,
tagged with its `resource_type`, in the source's insertion order. -/
def create_glue_db_yaml (input : GlueDBPRInput) : List (String × YVal) :=
  [("resource_type", .s "glue_database"),
   ("intake_id", .s input.intake_id),
   ("database_name", .s input.database_name),
   ("database_s3_location", .s input.database_s3_location),
   ("database_description", .s input.database_description),
   ("aws_account_id", .s input.aws_account_id),
   ("source_name", .s input.source_name),
   ("enterprise_or_func_name", .s input.enterprise_or_func_name),
   ("enterprise_or_func_subgrp_name", .s input.enterprise_or_func_subgrp_name),
   ("region", .s input.region),
   ("data_construct", .s input.data_construct),
   ("data_env", .s input.data_env),
   ("data_layer", .s input.data_layer),
   ("data_leader", .s input.data_leader),
   ("data_owner_email", .s input.data_owner_email),
   ("data_owner_github_uname", .s input.data_owner_github_uname)]

/-- `create_s3_bucket_yaml` (`s3_pr_tool.py`). -/
def create_s3_bucket_yaml (input : S3BucketPRInput) : List (String × YVal) :=
  [("resource_type", .s "s3_bucket"),
   ("intake_id", .s input.intake_id),
   ("bucket_name", .s input.bucket_name),
   ("bucket_description", .s input.bucket_description),
   ("aws_account_id", .s input.aws_account_id),
   ("aws_region", .s input.aws_region),
   ("usage_type", .s input.usage_type),
   ("enterprise_or_func_name", .s input.enterprise_or_func_name)]

/-- Python truthiness of an `Optional` list-like value (`None` and empty are
falsy). -/
def truthyOptList : Option (List α) → Bool
  | none => false
  | some l => !l.isEmpty

/-- Python truthiness of an `Optional[str]` (`None` and `""` are falsy). -/
def truthyOptStr : Option String → Bool
  | none => false
  | some s => !(s == "")

/-- `create_iam_role_yaml` (`iam_role_tool.py`): base dictionary, then the
`access_to_resources` sub-entries under Python truthiness, then the
optional top-level entries under `is not None` (with the inner
`glue_job_access_configs` entries again under truthiness). -/
def create_iam_role_yaml (input : IAMRolePRInput) : List (String × YVal) :=
  let accessEntries : List (String × YVal) :=
    (if truthyOptList input.access_to_resources.glue_databases then
      [("glue_databases", YVal.m
        ((input.access_to_resources.glue_databases.getD []).map
          (fun p => (p.1, YVal.l (p.2.map YVal.s)))))]
     else [])
    ++ (if truthyOptList input.access_to_resources.execution_asset_prefixes then
      [("execution_asset_prefixes", YVal.l
        ((input.access_to_resources.execution_asset_prefixes.getD []).map YVal.s))]
     else [])
    ++ (if truthyOptList input.access_to_resources.glue_crawler then
      [("glue_crawler", YVal.l (input.access_to_resources.glue_crawler.getD []))]
     else [])
  let base : List (String × YVal) :=
    [("resource_type", .s "iam_role"),
     ("intake_id", .s input.intake_id),
     ("role_name", .s input.role_name),
     ("role_description", .s input.role_description),
     ("aws_account_id", .s input.aws_account_id),
     ("enterprise_or_func_name", .s input.enterprise_or_func_name),
     ("enterprise_or_func_subgrp_name", .s input.enterprise_or_func_subgrp_name),
     ("role_owner", .s input.role_owner),
     ("data_env", .s input.data_env),
     ("usage_type", .s input.usage_type),
     ("compute_size", .s input.compute_size),
     ("max_session_duration", .i input.max_session_duration),
     ("access_to_resources", .m accessEntries)]
  let withCrawler := base ++
    (match input.glue_crawler with
     | some items => [("glue_crawler", YVal.l items)]
     | none => [])
  let withJobCfg := withCrawler ++
    (match input.glue_job_access_configs with
     | some cfg =>
       [("glue_job_access_configs", YVal.m
         ([("enable_glue_jobs", YVal.b cfg.enable_glue_jobs)]
          ++ (if truthyOptStr cfg.secret_region then
                [("secret_region", YVal.s (cfg.secret_region.getD ""))] else [])
          ++ (if truthyOptStr cfg.secret_name then
                [("secret_name", YVal.s (cfg.secret_name.getD ""))] else [])
          ++ (if truthyOptList cfg.job_control_configs then
                [("job_control_configs", YVal.l
                  ((cfg.job_control_configs.getD []).map YVal.s))] else [])))]
     | none => [])
  withJobCfg ++
    (match input.athena with
     | some es => [("athena", YVal.m es)]
     | none => [])

/-! ## Input parsing (`app/api.py`) -/

/-- `GLUE_DB_FIELDS` (`app/prompts/system_prompt.py`). -/
def GLUE_DB_FIELDS : List String :=
  ["intake_id", "database_name", "database_s3_location", "database_description",
   "aws_account_id", "source_name", "enterprise_or_func_name",
   "enterprise_or_func_subgrp_name", "region", "data_construct", "data_env",
   "data_layer", "data_leader", "data_owner_email", "data_owner_github_uname"]

/-- `S3_BUCKET_FIELDS` (`app/prompts/system_prompt.py`). -/
def S3_BUCKET_FIELDS : List String :=
  ["intake_id", "bucket_name", "bucket_description", "aws_account_id",
   "aws_region", "usage_type", "enterprise_or_func_name"]

/-- `IAM_ROLE_FIELDS` (`app/prompts/system_prompt.py`). -/
def IAM_ROLE_FIELDS : List String :=
  ["intake_id", "role_name", "role_description", "aws_account_id",
   "enterprise_or_func_name", "enterprise_or_func_subgrp_name", "role_owner",
   "data_env", "usage_type", "compute_size", "max_session_duration",
   "access_to_resources"]

/-- `parse_comma_separated` (`app/api.py`): split on commas, strip each
value, and zip against the field list; a count mismatch raises `ValueError`
with the expected and actual counts and the field order. -/
def parse_comma_separated (text : String) (field_list : List String) :
    Except String (List (String × YVal)) :=
  let values := (pySplit text ',').map pyStrip
  if values.length ≠ field_list.length then
    .error ("Expected " ++ toString field_list.length ++ " values but got "
      ++ toString values.length ++ ".\n\nRequired: " ++ joinWith ", " field_list)
  else .ok (field_list.zip (values.map YVal.s))

/-- The line-by-line fallback of `parse_key_value`: skip blank and `#` lines,
split each remaining line on the first `:`, strip both sides (lines without
a `:` are skipped). -/
def parseKeyValueLines (text : String) : List (String × YVal) :=
  ((pySplit (pyStrip text) '\n').map pyStrip).foldl
    (fun acc line =>
      if line == "" || pyStartsWith line "#" then acc
      else if pyContains line ":" then
        let k := pyStrip ⟨line.data.takeWhile (fun c => !(c == ':'))⟩
        let v := pyStrip ⟨(line.data.dropWhile (fun c => !(c == ':'))).drop 1⟩
        acc ++ [(k, YVal.s v)]
      else acc)
    []

/-- `parse_key_value` (`app/api.py`): try `yaml.safe_load` first and return
its dictionary if it yields one; otherwise fall back to line-by-line
key/value parsing.  This function cannot fail. -/
def parse_key_value (text : String) : List (String × YVal) :=
  match safeLoadDict text with
  | some es => es
  | none => parseKeyValueLines text

/-- `smart_parse_input` (`app/api.py`): pick the field list by resource
type, then auto-detect the format: a line break means key/value; enough
colons means single-line key/value with commas as line breaks; otherwise
strictly positional comma-separated values.  Note: no resource type gets
special treatment here — `iam_role` positional input reaches
`parse_comma_separated` like any other kind. -/
def smart_parse_input (text : String) (resource_type : String) :
    Except String (List (String × YVal)) :=
  let fieldsOf : Option (List String) :=
    if resource_type = "glue_db" then some GLUE_DB_FIELDS
    else if resource_type = "s3_bucket" then some S3_BUCKET_FIELDS
    else if resource_type = "iam_role" then some IAM_ROLE_FIELDS
    else none
  match fieldsOf with
  | none => .error ("Unknown resource type: " ++ resource_type)
  | some field_list =>
    if pyContains text "\n" then .ok (parse_key_value text)
    else if pyContains text ":" && countChar ':' text ≥ field_list.length - 1 then
      .ok (parse_key_value (replaceChar ',' '\n' text))
    else parse_comma_separated text field_list

/-- `format_validation_error` (`app/api.py`): one bold line per failing
field (`field.replace('_',' ').title()` is modelled by `pyTitleUnd`). -/
def pyTitleUnd (field : String) : String :=
  ⟨(splitChar '_' field.data).foldr
    (fun w acc =>
      let w' := match w with
        | [] => []
        | c :: cs => upperChar c :: cs.map lowerChar
      if acc.isEmpty then w' else w' ++ ' ' :: acc)
    []⟩

/-- `format_validation_error` (`app/api.py`). -/
def format_validation_error (errs : List (String × String)) : String :=
  "❌ **Validation Failed**\n\n"
    ++ joinWith "\n" (errs.map (fun p => "**" ++ pyTitleUnd p.1 ++ "**: " ++ p.2))

/-! ## Repository publisher (`create_multi_resource_pr` in `app/api.py`,
`create_pull_request` in `app/services/git_ops.py`)

The publisher acts on one shared local working copy through gitpython and
on GitHub through HTTP.  The working copy's dirt state and the HTTP
response are the external inputs; the git commands issued are recorded as
an ordered effect list. -/

/-- The dirt state of the local working copy, by path category:
`untracked` models `repo.untracked_files`; `modifiedUnstaged` models
`repo.index.diff(None)` (working tree vs. index); `stagedUncommitted`
models changes recorded in the index but not committed (index vs. HEAD),
which `repo.is_dirty` detects but which appear in neither of the two path
lists the function collects. -/
structure RepoState where
  untracked : List String
  modifiedUnstaged : List String
  stagedUncommitted : List String
  deriving Repr, DecidableEq

/-- `repo.is_dirty(untracked_files=True)`: any difference in index vs.
HEAD, working tree vs. index, or untracked files. -/
def isDirty (r : RepoState) : Bool :=
  !r.untracked.isEmpty || !r.modifiedUnstaged.isEmpty || !r.stagedUncommitted.isEmpty

/-- A git command issued against the working copy, in program order. -/
inductive GitEffect where
  | checkout (branch : String)
  | pull (remote branch : String)
  | makedirs (dir : String)
  | writeFile (path content : String)
  | stageFiles (paths : List String)
  | commit (msg : String)
  | push (remote branch : String)
  deriving Repr, DecidableEq

/-- The GitHub response to the pull-request creation POST (external). -/
inductive HttpOutcome where
  | created (htmlUrl : String)
  | status422 (bodyText : String)
  | status401
  | status404
  | statusOther (code : Nat) (text : String)
  | timeout
  | connError
  deriving Repr, DecidableEq

/-- `create_pull_request` (`app/services/git_ops.py`): returns the new PR's
`html_url` on 201; every other outcome raises `RuntimeError` (modelled as
`.error` carrying `str(e)`).  A 422 whose body mentions an already-existing
pull request produces the distinguished already-exists message, embedding
`get_existing_pr_url`'s result (`existingUrl`, external). -/
def create_pull_request (fork_owner : Option String) (repo_name : String)
    (outcome : HttpOutcome) (existingUrl : Option String) : Except String String :=
  match fork_owner with
  | none => .error ("GITHUB_USERNAME not set in environment. "
      ++ "Please add your GitHub username to .env file.")
  | some owner =>
    match outcome with
    | .created url => .ok url
    | .status422 body =>
      if pyContains (pyLower body) "pull request already exists" then
        .error ("A pull request already exists from " ++ owner ++ ":dev to "
          ++ repo_name ++ ":dev.\nExisting PR: "
          ++ (match existingUrl with
              | some u => u
              | none => "Check your PRs on GitHub")
          ++ "\n\nOptions:\n1. Close the existing PR and create a new one\n"
          ++ "2. Your changes have been pushed to your fork's dev branch and will appear in the existing PR")
      else .error ("GitHub API validation error: " ++ body)
    | .status401 => .error "Authentication failed. Please check your GITHUB_TOKEN in .env file."
    | .status404 => .error ("Repository '" ++ repo_name
        ++ "' not found or you don't have access. Please verify REPO_NAME in .env file.")
    | .statusOther code text =>
      .error ("GitHub API error (status " ++ toString code ++ "): " ++ text)
    | .timeout => .error "GitHub API request timed out. Please try again."
    | .connError => .error ("Failed to connect to GitHub API. "
        ++ "Please check your internet connection.")

/-- The names bound at module level of `app/api.py` (imports, module
assignments, `def`s and `class`es).  Relevant because line 240 of
`api.py` reads the bare name `session` inside `create_multi_resource_pr`,
which has no local of that name, so Python resolves it against these. -/
def apiModuleGlobals : List String :=
  ["FastAPI", "CORSMiddleware", "BaseModel", "ValidationError", "List", "Dict",
   "Optional", "os", "traceback", "load_dotenv", "ChatGroq", "sys", "Path",
   "app_dir", "SYSTEM_PROMPT", "GLUE_DB_FIELDS", "S3_BUCKET_FIELDS",
   "IAM_ROLE_FIELDS", "GlueDBPRInput", "create_glue_db_yaml",
   "get_validation_help", "S3BucketPRInput", "create_s3_bucket_yaml",
   "get_s3_validation_help", "IAMRolePRInput", "create_iam_role_yaml",
   "generate_yaml", "create_pull_request", "app", "llm",
   "parse_comma_separated", "parse_key_value", "smart_parse_input",
   "format_validation_error", "create_multi_resource_pr", "session_store",
   "get_session", "ChatRequest", "ChatResponse", "root", "chat", "reset",
   "health"]

/-- The success message returned after PR creation. -/
def publishSuccessMsg (nGlue nS3 nIam : Nat) (pr_title url : String) : String :=
  "🎉 Boom! Your PR is live!\n\n📋 **Title:** " ++ pr_title
    ++ "\n📦 **What's included:** " ++ toString nGlue ++ " Glue DB(s), "
    ++ toString nS3 ++ " S3 Bucket(s), " ++ toString nIam ++ " IAM Role(s)"
    ++ "\n🔗 **View it here:** " ++ url
    ++ "\n\nGreat work! Your team can review it whenever they're ready. Need anything else? 😊"

/-- The conflict message the source builds in its already-exists handler
(lines 242–254 of `api.py`). -/
def publishConflictMsg (nGlue nS3 nIam : Nat) : String :=
  "🤔 A PR already exists from your fork to upstream!\n\n"
    ++ "**Good news!** Your new changes have been committed to your fork's dev branch. "
    ++ "They will automatically appear in the existing PR.\n\n"
    ++ "📦 What was added:\n"
    ++ "• " ++ toString nGlue ++ " Glue Database(s)\n"
    ++ "• " ++ toString nS3 ++ " S3 Bucket(s)\n"
    ++ "• " ++ toString nIam ++ " IAM Role(s)\n\n"
    ++ "✅ Check your existing PR - it should now include these new resources!\n\n"
    ++ "Want to create more resources? Just tell me what you'd like to add! 😊"

/-- The commit message built from the title and the per-kind counts, then
`.strip()`ped. -/
def publishCommitMsg (nGlue nS3 nIam : Nat) (pr_title : String) : String :=
  pyStrip (pr_title ++ "\n\n"
    ++ (if nGlue ≠ 0 then "- Added " ++ toString nGlue ++ " Glue Database(s)\n" else "")
    ++ (if nS3 ≠ 0 then "- Added " ++ toString nS3 ++ " S3 Bucket(s)\n" else "")
    ++ (if nIam ≠ 0 then "- Added " ++ toString nIam ++ " IAM Role(s)\n" else ""))

/-- Step 3 of the publish transaction for Glue databases: one artifact per
record, named after the record, under the kind's directory.  The session
dictionaries were produced by `.dict()` on already-validated records and
`GlueDBPRInput(**d)` etc. re-run the validators on the normalized values,
reproducing the same records, so the model takes the validated records
directly. -/
def glueWriteList (glue_dbs : List GlueDBPRInput) : List (String × String) :=
  glue_dbs.map (fun g =>
    ("intake_configs/glue_databases/" ++ g.database_name ++ ".yaml",
     generate_yaml (create_glue_db_yaml g)))

/-- Step 3 for S3 buckets. -/
def s3WriteList (s3_buckets : List S3BucketPRInput) : List (String × String) :=
  s3_buckets.map (fun b =>
    ("intake_configs/s3_buckets/" ++ b.bucket_name ++ ".yaml",
     generate_yaml (create_s3_bucket_yaml b)))

/-- Step 3 for IAM roles. -/
def iamWriteList (iam_roles : List IAMRolePRInput) : List (String × String) :=
  iam_roles.map (fun r =>
    ("intake_configs/iam_roles/" ++ r.role_name ++ ".yaml",
     generate_yaml (create_iam_role_yaml r)))

/-- `created_files`: the paths accumulated during step 3. -/
def createdFilesOf (glue_dbs : List GlueDBPRInput)
    (s3_buckets : List S3BucketPRInput) (iam_roles : List IAMRolePRInput) :
    List String :=
  (glueWriteList glue_dbs).map (·.1) ++ (s3WriteList s3_buckets).map (·.1)
    ++ (iamWriteList iam_roles).map (·.1)

/-- The directory-creation and file-write commands of step 3 (one directory
per non-empty kind, one write per record). -/
def writeEffsOf (glue_dbs : List GlueDBPRInput)
    (s3_buckets : List S3BucketPRInput) (iam_roles : List IAMRolePRInput) :
    List GitEffect :=
  (if glue_dbs.isEmpty then [] else
    GitEffect.makedirs "intake_configs/glue_databases"
      :: (glueWriteList glue_dbs).map (fun p => GitEffect.writeFile p.1 p.2))
  ++ (if s3_buckets.isEmpty then [] else
    GitEffect.makedirs "intake_configs/s3_buckets"
      :: (s3WriteList s3_buckets).map (fun p => GitEffect.writeFile p.1 p.2))
  ++ (if iam_roles.isEmpty then [] else
    GitEffect.makedirs "intake_configs/iam_roles"
      :: (iamWriteList iam_roles).map (fun p => GitEffect.writeFile p.1 p.2))

/-- The full ordered command sequence of steps 2–5. -/
def publishEffs (glue_dbs : List GlueDBPRInput)
    (s3_buckets : List S3BucketPRInput) (iam_roles : List IAMRolePRInput)
    (pr_title : String) : List GitEffect :=
  [GitEffect.checkout "dev", GitEffect.pull "origin" "dev"]
    ++ writeEffsOf glue_dbs s3_buckets iam_roles
    ++ [GitEffect.stageFiles (createdFilesOf glue_dbs s3_buckets iam_roles),
        GitEffect.commit (publishCommitMsg glue_dbs.length s3_buckets.length
          iam_roles.length pr_title),
        GitEffect.push "origin" "dev"]

/-- Steps 2–6 of the publish transaction, after the preflight check
passed: branch sync, artifact writes, staging of exactly the created files,
one commit, push, then PR creation.

On `RuntimeError` from PR creation whose text contains `"already exists"`,
the source first executes `session["pr_conflict_detected"] = True`
(line 240 of `api.py`); `session` is not a local of the function, and
resolving it against the module globals fails, so a `NameError` (whose
`str` is `"name 'session' is not defined"`) propagates to the outer
`except Exception` handler instead of the conflict message being
returned. -/
def publishAfterPreflight (glue_dbs : List GlueDBPRInput)
    (s3_buckets : List S3BucketPRInput) (iam_roles : List IAMRolePRInput)
    (pr_title : String) (fork_owner : Option String) (repo_name : String)
    (outcome : HttpOutcome) (existingUrl : Option String) :
    String × List GitEffect :=
  let effs := publishEffs glue_dbs s3_buckets iam_roles pr_title
  match create_pull_request fork_owner repo_name outcome existingUrl with
  | .ok url =>
    (publishSuccessMsg glue_dbs.length s3_buckets.length iam_roles.length pr_title url,
     effs)
  | .error msg =>
    if pyContains (pyLower msg) "already exists" then
      if apiModuleGlobals.contains "session" then
        (publishConflictMsg glue_dbs.length s3_buckets.length iam_roles.length, effs)
      else ("❌ Failed: name 'session' is not defined", effs)
    else ("❌ Failed: " ++ msg, effs)

/-- `create_multi_resource_pr` (`app/api.py`): the preflight cleanliness
check, then the publish transaction.  Returns the user-facing message and
the ordered list of git commands that were issued. -/
def create_multi_resource_pr (repoState : RepoState)
    (glue_dbs : List GlueDBPRInput) (s3_buckets : List S3BucketPRInput)
    (iam_roles : List IAMRolePRInput) (pr_title : String)
    (fork_owner : Option String) (repo_name : String)
    (outcome : HttpOutcome) (existingUrl : Option String) :
    String × List GitEffect :=
  if isDirty repoState then
    let untracked := repoState.untracked
    let modified := repoState.modifiedUnstaged
    let all_changes := untracked ++ modified
    let non_intake := all_changes.filter (fun f => !(pyStartsWith f "intake_configs/"))
    if !non_intake.isEmpty then
      ("❌ Failed: Repository has uncommitted changes: " ++ joinWith ", " non_intake
        ++ "\nPlease commit or stash them first.", [])
    else
      publishAfterPreflight glue_dbs s3_buckets iam_roles pr_title fork_owner
        repo_name outcome existingUrl
  else
    publishAfterPreflight glue_dbs s3_buckets iam_roles pr_title fork_owner
      repo_name outcome existingUrl

/-! ## Session store and chat handler (`app/api.py`)

`session_store` is a module-level Python dict mapping session ids to
mutable session dicts.  Because `session_store[sid] = get_session("new")`
stores the *same object* under two keys, object identity matters: the store
is modelled as a mapping from ids to heap addresses plus a heap of session
values, so aliasing is preserved. -/

/-- The per-session dict created by `get_session` on a miss. -/
structure SessionData where
  glue_dbs : List GlueDBPRInput
  s3_buckets : List S3BucketPRInput
  iam_roles : List IAMRolePRInput
  current_resource_type : Option String
  awaiting_pr_title : Bool
  pr_conflict_detected : Bool
  state : String
  deriving Repr, Inhabited

/-- The fresh session value `get_session` installs on a miss. -/
def freshSession : SessionData :=
  { glue_dbs := [], s3_buckets := [], iam_roles := [],
    current_resource_type := none, awaiting_pr_title := false,
    pr_conflict_detected := false, state := "idle" }

/-- `session_store` with object identity: `refs` maps session ids to heap
addresses, `heap` holds the session objects. -/
structure SessionStore where
  refs : List (String × Nat)
  heap : List SessionData
  deriving Repr, Inhabited

/-- The empty module-level store. -/
def emptyStore : SessionStore := { refs := [], heap := [] }

/-- Address bound to a session id (first match; updates prepend). -/
def lookupRef (st : SessionStore) (sid : String) : Option Nat :=
  (st.refs.find? (fun p => p.1 == sid)).map (·.2)

/-- Rebind a session id to an address. -/
def setRef (st : SessionStore) (sid : String) (r : Nat) : SessionStore :=
  { st with refs := (sid, r) :: st.refs }

/-- The session object at an address. -/
def heapGet (st : SessionStore) (r : Nat) : SessionData :=
  st.heap.getD r freshSession

/-- Mutate the session object at an address (visible through every id bound
to that address). -/
def heapSet (st : SessionStore) (r : Nat) (d : SessionData) : SessionStore :=
  { st with heap := st.heap.set r d }

/-- `get_session` (`app/api.py`): create-on-miss, then return the (shared,
mutable) session object — here its address. -/
def get_session (st : SessionStore) (sid : String) : Nat × SessionStore :=
  match lookupRef st sid with
  | some r => (r, st)
  | none =>
    (st.heap.length,
     { refs := (sid, st.heap.length) :: st.refs, heap := st.heap ++ [freshSession] })

/-- `get_validation_help` (`glue_pr_tool.py`), with the source file's exact
bytes (the file is stored with mojibake for its non-ASCII characters). -/
def get_validation_help : String :=
  "\nðŸ“‹ GLUE DATABASE VALIDATION RULES:\n\n1. database_name: Must start with 'minerva'\n   âœ“ Example: minerva_dev_sales_db\n\n2. enterprise_or_func_name: Must be one of:\n   â€¢ AGTR: Ag & Trading\n   â€¢ CORP: Corporate\n   â€¢ FOOD: Food\n   â€¢ SPEC: Specialized Portfolio\n\n3. enterprise_or_func_subgrp_name: Must match parent function:\n\n   AGTR â†’ EMEA, NA, LATAM, APAC, WTG, WTG_CDAS, OT, CRM, TCM, MET\n   CORP â†’ GI_SUST, EHS, FIN, GTC, CPT, HR, AUDIT, DTD, LAW, DTD_DPE, RMG, FSQR\n   FOOD â†’ FSGL, FS_NA, FS_LATAM, FS_APAC, FS_EMEA, PRGL, PR_LATAM, PR_NA, PR_APAC, SALT, CE, RD\n   SPEC â†’ ANH, CBI, DS\n\n4. data_env: Must be 'dev' or 'prd'\n\n5. data_layer: Must be 'raw' or 'cln'\n   â€¢ raw = raw data\n   â€¢ cln = cleaned/curated data\n\n6. aws_account_id: Must be exactly 12 digits\n\n7. data_owner_email: Must be valid email format\n\n8. database_s3_location: Must start with 's3://'\n"

/-- `get_s3_validation_help` (`s3_pr_tool.py`). -/
def get_s3_validation_help : String :=
  "\n📋 S3 BUCKET VALIDATION RULES:\n\n1. bucket_name: Must follow AWS naming rules\n   ✓ 3-63 characters long\n   ✓ Lowercase letters, numbers, hyphens (-), and dots (.)\n   ✓ Start and end with letter or number\n   ✗ No underscores (_)\n   ✗ No consecutive dots (..)\n   ✗ Cannot look like an IP address (e.g., 192.168.1.1)\n\n   Example: my-data-bucket-2024 ✓\n   Example: My_Bucket ✗ (uppercase and underscore)\n\n2. enterprise_or_func_name: Must be one of:\n   • AGTR: Ag & Trading\n   • CORP: Corporate\n   • FOOD: Food\n   • SPEC: Specialized Portfolio\n\n3. aws_account_id: Must be exactly 12 digits\n\n4. aws_region: Must be a valid AWS region\n   Common: us-east-1, us-west-2, eu-west-1, ap-southeast-1\n"

/-- The external collaborators of one `/chat` request: the LLM reply used by
the classifier branch, and the repository/GitHub environment consumed if a
publish happens inside this request. -/
structure ChatExt where
  llmResponse : String
  repoState : RepoState
  fork_owner : Option String
  repo_name : String
  httpOutcome : HttpOutcome
  existingUrl : Option String
  deriving Repr

/-- The response text after a record is appended. -/
def recordAddedMsg (resource_name nm : String) : String :=
  "✅ Perfect! I've got all the details for your " ++ resource_name ++ " '" ++ nm
    ++ "'.\n\nWant to add more resources to this PR? You can add:\n"
    ++ "• Another Glue Database\n• An S3 Bucket\n• An IAM Role\n\n"
    ++ "Or just type **'done'** if you're ready to create the PR! 🚀"

/-- The data-collection branch of `chat` (the body under
`if has_separators and is_substantial and is_not_question` with a set
resource type): parse, validate, append-on-success. -/
def chatCollectData (st : SessionStore) (r : Nat) (session : SessionData)
    (rt : String) (user_input : String) : SessionStore × String :=
  match smart_parse_input user_input rt with
  | .error e =>
    (st, "❌ Validation error: " ++ e ++ "\n\nPlease check your input and try again.")
  | .ok parsed =>
    if rt = "glue_db" then
      match mkGlueDBPRInput parsed with
      | .ok glue =>
        (heapSet st r { session with
            glue_dbs := session.glue_dbs ++ [glue],
            current_resource_type := none, state := "confirming" },
         recordAddedMsg "Glue Database" glue.database_name)
      | .error ve =>
        (st, format_validation_error ve
          ++ "\n\n💡 **Need help with validation rules?** Type 'validation help' to see all requirements.")
    else if rt = "s3_bucket" then
      match mkS3BucketPRInput parsed with
      | .ok s3 =>
        (heapSet st r { session with
            s3_buckets := session.s3_buckets ++ [s3],
            current_resource_type := none, state := "confirming" },
         recordAddedMsg "S3 Bucket" s3.bucket_name)
      | .error ve => (st, format_validation_error ve)
    else if rt = "iam_role" then
      match mkIAMRolePRInput parsed with
      | .ok iam =>
        (heapSet st r { session with
            iam_roles := session.iam_roles ++ [iam],
            current_resource_type := none, state := "confirming" },
         recordAddedMsg "IAM Role" iam.role_name)
      | .error ve => (st, format_validation_error ve)
    else (st, "❌ Validation error: \n\nPlease check your input and try again.")

/-- The `/chat` handler (`app/api.py`), for a request with at least one
message whose last entry has content `userInput0`.  Branches in source
order: conflict acknowledgement, validation help, awaiting-title (publish),
data collection, done-collecting, then the LLM conversation with
resource-type tracking on the reply. -/
def chat (st0 : SessionStore) (sid : String) (userInput0 : String) (ext : ChatExt) :
    SessionStore × String :=
  let (r, st) := get_session st0 sid
  let session := heapGet st r
  let user_input := pyStrip userInput0
  let user_lower := pyLower user_input
  if session.pr_conflict_detected
      && (["keep", "option 1", "1", "existing"].any (fun kw => pyContains user_lower kw)) then
    let st := heapSet st r { session with pr_conflict_detected := false }
    let (rNew, st) := get_session st "new"
    let st := setRef st sid rNew
    (st, "Got it! Your changes are in the existing PR. Let's start fresh - what would you like to create next?")
  else if pyContains user_lower "validation" && pyContains user_lower "help" then
    if pyContains user_lower "glue" || session.current_resource_type == some "glue_db" then
      (st, get_validation_help)
    else if pyContains user_lower "s3" || session.current_resource_type == some "s3_bucket" then
      (st, get_s3_validation_help)
    else (st, get_validation_help ++ "\n\n" ++ get_s3_validation_help)
  else if session.awaiting_pr_title then
    if pyWordCount user_input ≥ 3 then
      let result := (create_multi_resource_pr ext.repoState session.glue_dbs
        session.s3_buckets session.iam_roles user_input ext.fork_owner
        ext.repo_name ext.httpOutcome ext.existingUrl).1
      let (rNew, st) := get_session st "new"
      let st := setRef st sid rNew
      (st, result)
    else
      (st, "Please provide a descriptive PR title (at least 3 words). For example: 'Add sales analytics Glue database for LATAM'")
  else
    let has_separators := pyContains user_input ","
      || (pyContains user_input ":" && pyContains user_input "\n")
    let is_substantial := pyLen user_input > 40
    let is_not_question := !(["what", "how", "which", "prefer", "?", "format", "option"].any
      (fun q => pyContains user_lower q))
    if has_separators && is_substantial && is_not_question
        && session.current_resource_type.isSome then
      chatCollectData st r session (session.current_resource_type.getD "") user_input
    else if (["done", "create pr", "make pr", "generate pr", "finish"].any
          (fun kw => pyContains user_lower kw))
        || (pyContains user_lower "no" && pyContains user_lower "more") then
      let total := session.glue_dbs.length + session.s3_buckets.length
        + session.iam_roles.length
      if total = 0 then
        (st, "Hmm, we haven't collected any resources yet! Would you like to add a Glue Database, S3 Bucket, or IAM Role? 🤔")
      else
        (heapSet st r { session with awaiting_pr_title := true },
         "Awesome! Here's what we're packaging up:\n📦 "
           ++ toString session.glue_dbs.length ++ " Glue Database(s)\n📦 "
           ++ toString session.s3_buckets.length ++ " S3 Bucket(s)\n📦 "
           ++ toString session.iam_roles.length ++ " IAM Role(s)\n\n"
           ++ "Now, let's give this PR a good title! What should we call it?\n"
           ++ "(Something descriptive like 'Add sales analytics Glue database for LATAM')")
    else
      let resp_lower := pyLower ext.llmResponse
      let st :=
        if pyContains resp_lower "glue"
            && (pyContains resp_lower "database" || pyContains resp_lower "db") then
          heapSet st r { session with
            current_resource_type := some "glue_db", state := "collecting_data" }
        else if pyContains resp_lower "s3" && pyContains resp_lower "bucket" then
          heapSet st r { session with
            current_resource_type := some "s3_bucket", state := "collecting_data" }
        else if pyContains resp_lower "iam" && pyContains resp_lower "role" then
          heapSet st r { session with
            current_resource_type := some "iam_role", state := "collecting_data" }
        else st
      (st, ext.llmResponse)

/-! ## Governance naming rules (`app/validators/governance_rules.py`) -/

namespace GovernanceRules

/-- `DATABASE_NAME_PATTERNS`. -/
def DATABASE_NAME_PATTERNS : List String := ["minerva_", "cargill_", "data_"]

/-- `validate_database_name` (`governance_rules.py`): an approved prefix,
then lower-case / character-set checks; `(is_valid, error_message)`. -/
def validate_database_name (database_name : String) : Bool × Option String :=
  if !(DATABASE_NAME_PATTERNS.any (fun p => pyStartsWith database_name p)) then
    (false, some ("Database name '" ++ database_name
      ++ "' doesn't follow naming convention.\nDatabase names must start with one of: "
      ++ joinWith ", " DATABASE_NAME_PATTERNS
      ++ "\nExamples:\n  - minerva_sales_analytics\n  - minerva_customer_raw\n  - cargill_supply_chain_cln"))
  else if !(pyIsLower database_name)
      || !(pyIsAlnum (replaceCharDel '_' (replaceCharDel '-' database_name))) then
    (false, some ("Database name '" ++ database_name
      ++ "' contains invalid characters.\nDatabase names must be lowercase and contain only letters, numbers, underscores, and hyphens."))
  else (true, none)

end GovernanceRules

/-! ## Helper lemmas -/

theorem mk_data_eq (s : String) : (⟨s.data⟩ : String) = s := by
  cases s
  rfl

theorem listStarts_self_append (l r : List Char) : listStarts l (l ++ r) = true := by
  induction l with
  | nil => rfl
  | cons c cs ih => simpa [listStarts] using ih

theorem listStarts_nil (l : List Char) : listStarts [] l = true := by
  cases l <;> rfl

theorem listHasSub_embed (pre n post : List Char) :
    listHasSub n (pre ++ (n ++ post)) = true := by
  induction pre with
  | nil =>
    cases n with
    | nil =>
      cases post with
      | nil => rfl
      | cons c cs => simp [listHasSub, listStarts_nil]
    | cons c cs =>
      have hs : listStarts (c :: cs) ((c :: cs) ++ post) = true :=
        listStarts_self_append (c :: cs) post
      simp only [List.nil_append, List.cons_append] at hs ⊢
      simp [listHasSub, hs]
  | cons c cs ih => simp [listHasSub, ih]

/-- Substring occurrence from an explicit decomposition of the data. -/
theorem pyContains_of_data (s sub : String) (pre post : List Char)
    (h : s.data = pre ++ (sub.data ++ post)) : pyContains s sub = true := by
  simpa [pyContains, h] using listHasSub_embed pre sub.data post

/-! ## Claim theorems -/

/-- C5: positional input whose comma-split value count differs from the
field count always fails: `parse_comma_separated` returns an error (no
mapping at all, so no partial mapping), and the message reports the
expected count, the actual count, and the expected field order. -/
theorem parse_comma_separated_count_mismatch
    (text : String) (field_list : List String)
    (h : ((pySplit text ',').map pyStrip).length ≠ field_list.length) :
    ∃ msg, parse_comma_separated text field_list = .error msg
      ∧ pyContains msg ("Expected " ++ toString field_list.length
          ++ " values but got "
          ++ toString ((pySplit text ',').map pyStrip).length) = true
      ∧ pyContains msg (joinWith ", " field_list) = true := by
  refine ⟨"Expected " ++ toString field_list.length ++ " values but got "
      ++ toString ((pySplit text ',').map pyStrip).length
      ++ ".\n\nRequired: " ++ joinWith ", " field_list, ?_, ?_, ?_⟩
  · have h' : (pySplit text ',').length ≠ field_list.length := by simpa using h
    simp [parse_comma_separated, h']
  · apply pyContains_of_data _ _ [] (".\n\nRequired: " ++ joinWith ", " field_list).data
    simp [String.data_append, List.append_assoc]
  · apply pyContains_of_data _ _
      (("Expected " ++ toString field_list.length ++ " values but got "
        ++ toString ((pySplit text ',').map pyStrip).length ++ ".\n\nRequired: ").data) []
    simp [String.data_append, List.append_assoc]

/-- C5 witness: two values against the fifteen Glue fields. -/
theorem parse_comma_separated_count_mismatch_witness :
    ∃ msg, parse_comma_separated "a, b" GLUE_DB_FIELDS = .error msg
      ∧ pyContains msg ("Expected " ++ toString GLUE_DB_FIELDS.length
          ++ " values but got "
          ++ toString ((pySplit "a, b" ',').map pyStrip).length) = true
      ∧ pyContains msg (joinWith ", " GLUE_DB_FIELDS) = true :=
  parse_comma_separated_count_mismatch "a, b" GLUE_DB_FIELDS (by decide)

/-- C4: the parser does not reject positional IAM-role input outright.  A
single-line comma-separated IAM input with exactly 12 values is parsed
into a flat field mapping (no rejection at all), and with 11 values it
fails only with the generic count-mismatch message, which does not direct
the caller to key/value format (it never mentions "key"). -/
theorem smart_parse_iam_positional_not_rejected :
    smart_parse_input
        "INT-9, myrole, role desc, 123456789012, AGTR, EMEA, a@b.com, dev, EgressEngineer, XSML, 8, none"
        "iam_role"
      = .ok [("intake_id", .s "INT-9"), ("role_name", .s "myrole"),
             ("role_description", .s "role desc"),
             ("aws_account_id", .s "123456789012"),
             ("enterprise_or_func_name", .s "AGTR"),
             ("enterprise_or_func_subgrp_name", .s "EMEA"),
             ("role_owner", .s "a@b.com"), ("data_env", .s "dev"),
             ("usage_type", .s "EgressEngineer"), ("compute_size", .s "XSML"),
             ("max_session_duration", .s "8"), ("access_to_resources", .s "none")]
    ∧ smart_parse_input
        "INT-9, myrole, role desc, 123456789012, AGTR, EMEA, a@b.com, dev, EgressEngineer, XSML, 8"
        "iam_role"
      = .error ("Expected 12 values but got 11.\n\nRequired: "
          ++ joinWith ", " IAM_ROLE_FIELDS)
    ∧ pyContains (pyLower ("Expected 12 values but got 11.\n\nRequired: "
          ++ joinWith ", " IAM_ROLE_FIELDS)) "key" = false := by
  set_option maxRecDepth 8000 in
  exact ⟨rfl, rfl, rfl⟩

/-- `session_duration_valid` only accepts values in `[1, 12]`. -/
theorem session_duration_valid_ok {y d : Int}
    (h : IAMRolePRInput.session_duration_valid y = .ok d) : 1 ≤ d ∧ d ≤ 12 := by
  unfold IAMRolePRInput.session_duration_valid at h
  split at h
  · exact absurd h (by simp)
  · rename_i hc
    simp only [Except.ok.injEq] at h
    subst h
    simp only [Bool.or_eq_true, decide_eq_true_eq, not_or] at hc
    omega

/-- C10: an IAM role record is constructed only when
`max_session_duration` lies in `[1, 12]`; a value outside that range makes
construction fail with the error naming the 1-to-12-hour bound on the
`max_session_duration` field. -/
theorem iam_session_duration_bound :
    (∀ (m : List (String × YVal)) (rec : IAMRolePRInput),
        mkIAMRolePRInput m = .ok rec →
        1 ≤ rec.max_session_duration ∧ rec.max_session_duration ≤ 12)
    ∧ (∀ (m : List (String × YVal)) (v : Int),
        dictGet m "max_session_duration" = some (.i v) → (v < 1 ∨ 12 < v) →
        ∃ es, mkIAMRolePRInput m = .error es
          ∧ ("max_session_duration",
              "Max session duration must be between 1 and 12 hours") ∈ es) := by
  constructor
  · intro m rec h
    simp only [mkIAMRolePRInput] at h
    set rD := ((requireField m "max_session_duration").bind intOfYVal).bind
      IAMRolePRInput.session_duration_valid with hrD
    split at h
    · rename_i hc
      simp only [Except.ok.injEq] at h
      subst h
      simp only
      cases hD : rD with
      | ok d =>
        simp only [okDA]
        have hD' : ((requireField m "max_session_duration").bind intOfYVal).bind
            IAMRolePRInput.session_duration_valid = .ok d := by
          rw [← hrD]; exact hD
        cases hx : (requireField m "max_session_duration").bind intOfYVal with
        | error e => rw [hx] at hD'; simp [Except.bind] at hD'
        | ok y =>
          rw [hx] at hD'
          simp only [Except.bind] at hD'
          exact session_duration_valid_ok hD'
      | error e =>
        exfalso
        have hmem : ("max_session_duration", e) ∈
            ([errOf "intake_id" (requireStr m "intake_id"),
              errOf "role_name" (requireStr m "role_name"),
              errOf "role_description" (requireStr m "role_description"),
              errOf "aws_account_id"
                ((requireStr m "aws_account_id").bind IAMRolePRInput.aws_account_valid),
              errOf "enterprise_or_func_name" (requireStr m "enterprise_or_func_name"),
              errOf "enterprise_or_func_subgrp_name"
                (requireStr m "enterprise_or_func_subgrp_name"),
              errOf "role_owner"
                ((requireStr m "role_owner").bind IAMRolePRInput.email_valid),
              errOf "data_env" (requireStr m "data_env"),
              errOf "usage_type" (requireStr m "usage_type"),
              errOf "compute_size" (requireStr m "compute_size"),
              errOf "max_session_duration" rD,
              errOf "access_to_resources"
                ((requireField m "access_to_resources").bind mkAccessToResources),
              errOf "glue_crawler" (optField m "glue_crawler"
                (fun v => match v with
                  | .l items => .ok items
                  | _ => .error "value is not a valid list")),
              errOf "glue_job_access_configs"
                (optField m "glue_job_access_configs" mkGlueJobAccessConfigs),
              errOf "athena" (optField m "athena"
                (fun v => match v with
                  | .m es => .ok es
                  | _ => .error "value is not a valid dict"))].reduceOption) := by
          rw [List.reduceOption_mem_iff]
          simp [hD, errOf]
        have := List.ne_nil_of_mem hmem
        simp_all [List.isEmpty_iff]
    · simp at h
  · intro m v hGet hv
    have hrD : ((requireField m "max_session_duration").bind intOfYVal).bind
        IAMRolePRInput.session_duration_valid
        = .error "Max session duration must be between 1 and 12 hours" := by
      simp only [requireField, hGet, Except.bind, intOfYVal,
        IAMRolePRInput.session_duration_valid]
      have : (decide (v < 1) || decide (v > 12)) = true := by
        rcases hv with h1 | h1 <;> simp [h1]
      rw [if_pos this]
    simp only [mkIAMRolePRInput, hrD]
    have hmem : ("max_session_duration",
        "Max session duration must be between 1 and 12 hours") ∈
        ([errOf "intake_id" (requireStr m "intake_id"),
          errOf "role_name" (requireStr m "role_name"),
          errOf "role_description" (requireStr m "role_description"),
          errOf "aws_account_id"
            ((requireStr m "aws_account_id").bind IAMRolePRInput.aws_account_valid),
          errOf "enterprise_or_func_name" (requireStr m "enterprise_or_func_name"),
          errOf "enterprise_or_func_subgrp_name"
            (requireStr m "enterprise_or_func_subgrp_name"),
          errOf "role_owner"
            ((requireStr m "role_owner").bind IAMRolePRInput.email_valid),
          errOf "data_env" (requireStr m "data_env"),
          errOf "usage_type" (requireStr m "usage_type"),
          errOf "compute_size" (requireStr m "compute_size"),
          errOf "max_session_duration"
            ((Except.error "Max session duration must be between 1 and 12 hours" :
              Except String Int)),
          errOf "access_to_resources"
            ((requireField m "access_to_resources").bind mkAccessToResources),
          errOf "glue_crawler" (optField m "glue_crawler"
            (fun v => match v with
              | .l items => .ok items
              | _ => .error "value is not a valid list")),
          errOf "glue_job_access_configs"
            (optField m "glue_job_access_configs" mkGlueJobAccessConfigs),
          errOf "athena" (optField m "athena"
            (fun v => match v with
              | .m es => .ok es
              | _ => .error "value is not a valid dict"))].reduceOption) := by
      rw [List.reduceOption_mem_iff]
      simp [errOf]
    refine ⟨_, ?_, hmem⟩
    rw [if_neg]
    simp [List.isEmpty_iff]
    exact List.ne_nil_of_mem hmem

/-- An IAM role input mapping whose sub-group `EMEA` belongs to `AGTR`, not
to the declared enterprise function `CORP`; all other fields valid. -/
def iamMismatchMap : List (String × YVal) :=
  [("intake_id", .s "INT-7"), ("role_name", .s "analytics-role"),
   ("role_description", .s "read-only analytics role"),
   ("aws_account_id", .s "123456789012"),
   ("enterprise_or_func_name", .s "CORP"),
   ("enterprise_or_func_subgrp_name", .s "EMEA"),
   ("role_owner", .s "owner@example.com"), ("data_env", .s "dev"),
   ("usage_type", .s "DataScientist"), ("compute_size", .s "SML"),
   ("max_session_duration", .i 8),
   ("access_to_resources", .m [("glue_databases", .m [("read", .l [.s "db1"])])])]

/-- The same mapping with an out-of-range session duration. -/
def iamBadDurationMap : List (String × YVal) :=
  [("intake_id", .s "INT-7"), ("role_name", .s "analytics-role"),
   ("role_description", .s "read-only analytics role"),
   ("aws_account_id", .s "123456789012"),
   ("enterprise_or_func_name", .s "CORP"),
   ("enterprise_or_func_subgrp_name", .s "EMEA"),
   ("role_owner", .s "owner@example.com"), ("data_env", .s "dev"),
   ("usage_type", .s "DataScientist"), ("compute_size", .s "SML"),
   ("max_session_duration", .i 13),
   ("access_to_resources", .m [("glue_databases", .m [("read", .l [.s "db1"])])])]

/-- C10 witness: a duration of 8 is accepted within bounds; 13 is rejected
with the 1-to-12-hour message. -/
theorem iam_session_duration_bound_witness :
    (∃ rec, mkIAMRolePRInput iamMismatchMap = .ok rec
      ∧ 1 ≤ rec.max_session_duration ∧ rec.max_session_duration ≤ 12)
    ∧ (∃ es, mkIAMRolePRInput iamBadDurationMap = .error es
      ∧ ("max_session_duration",
          "Max session duration must be between 1 and 12 hours") ∈ es) := by
  set_option maxRecDepth 8000 in
  exact ⟨⟨_, rfl, iam_session_duration_bound.1 iamMismatchMap _ rfl⟩,
    iam_session_duration_bound.2 iamBadDurationMap 13 rfl (Or.inr (by decide))⟩

/-- A `validate_subgroup` success means the declared enterprise function was
available and the (upper-cased) sub-group belongs to its set. -/
theorem validate_subgroup_ok {fv : Option String} {v w : String}
    (h : GlueDBPRInput.validate_subgroup fv v = .ok w) :
    ∃ f, fv = some f ∧ w = pyUpper v ∧ (VALID_SUBGROUPS f).contains w = true := by
  unfold GlueDBPRInput.validate_subgroup at h
  match fv with
  | none => simp at h
  | some f =>
    simp only at h
    split at h
    · simp at h
    · rename_i hc
      simp only [Except.ok.injEq] at h
      subst h
      exact ⟨f, rfl, rfl, by simpa using hc⟩

/-- C3 (amended): every accepted Glue database record satisfies the
cross-field governance invariant — its sub-group code belongs to the set
associated with its (normalized) enterprise-function code; consequently a
sub-group paired with a different enterprise function whose set does not
contain it is never accepted.  (IAM role records are the exception the
counterexample exhibits: they have no sub-group validator.) -/
theorem glue_subgroup_invariant :
    ∀ (m : List (String × YVal)) (g : GlueDBPRInput),
      mkGlueDBPRInput m = .ok g →
      (VALID_SUBGROUPS g.enterprise_or_func_name).contains
        g.enterprise_or_func_subgrp_name = true := by
  intro m g h
  simp only [mkGlueDBPRInput] at h
  set rFunc := (requireStr m "enterprise_or_func_name").bind
    GlueDBPRInput.validate_enterprise_function with hrF
  set rSub := (requireStr m "enterprise_or_func_subgrp_name").bind
    (GlueDBPRInput.validate_subgroup (exceptToOption rFunc)) with hrS
  split at h
  · rename_i hc
    simp only [Except.ok.injEq] at h
    subst h
    simp only
    cases hS : rSub with
    | error e =>
      exfalso
      rw [hS] at hc
      rw [List.isEmpty_iff] at hc
      refine absurd hc (List.ne_nil_of_mem
        (a := ("enterprise_or_func_subgrp_name", e)) ?_)
      rw [List.reduceOption_mem_iff]
      simp [errOf]
    | ok w =>
      have hS' : (requireStr m "enterprise_or_func_subgrp_name").bind
          (GlueDBPRInput.validate_subgroup (exceptToOption rFunc)) = .ok w := by
        rw [← hrS]; exact hS
      cases hq : requireStr m "enterprise_or_func_subgrp_name" with
      | error e => rw [hq] at hS'; simp [Except.bind] at hS'
      | ok v0 =>
        rw [hq] at hS'
        simp only [Except.bind] at hS'
        obtain ⟨f, hf, hw, hmem⟩ := validate_subgroup_ok hS'
        have hF : rFunc = .ok f := by
          cases hF2 : rFunc with
          | ok a => rw [hF2] at hf; simp [exceptToOption] at hf; rw [hf]
          | error e => rw [hF2] at hf; simp [exceptToOption] at hf
        rw [hF]
        simpa [okDA] using hmem
  · simp at h

/-- A fully valid Glue database input mapping. -/
def glueOkMap : List (String × YVal) :=
  [("intake_id", .s "INT-1"), ("database_name", .s "minerva_sales"),
   ("database_s3_location", .s "s3://bkt/p"),
   ("database_description", .s "sales data"),
   ("aws_account_id", .s "123456789012"), ("source_name", .s "sap"),
   ("enterprise_or_func_name", .s "agtr"),
   ("enterprise_or_func_subgrp_name", .s "emea"),
   ("region", .s "us-east-1"), ("data_construct", .s "Source"),
   ("data_env", .s "dev"), ("data_layer", .s "raw"),
   ("data_leader", .s "Jane"), ("data_owner_email", .s "a@b.com"),
   ("data_owner_github_uname", .s "jane")]

/-- C3 witness: the accepted record built from `glueOkMap` satisfies the
invariant (with normalization: `agtr`/`emea` upper-cased). -/
theorem glue_subgroup_invariant_witness :
    ∃ g, mkGlueDBPRInput glueOkMap = .ok g
      ∧ (VALID_SUBGROUPS g.enterprise_or_func_name).contains
          g.enterprise_or_func_subgrp_name = true := by
  set_option maxRecDepth 8000 in
  exact ⟨_, rfl, glue_subgroup_invariant glueOkMap _ rfl⟩

/-- C3 counterexample: `IAMRolePRInput` construction accepts the sub-group
`EMEA` (valid only under `AGTR`) paired with enterprise function `CORP`,
so the claim quantified over *every* accepted resource record is false. -/
theorem iam_subgroup_mismatch_accepted :
    (mkIAMRolePRInput iamMismatchMap).map
        (fun r => (r.enterprise_or_func_name, r.enterprise_or_func_subgrp_name))
      = .ok ("CORP", "EMEA")
    ∧ (VALID_SUBGROUPS "AGTR").contains "EMEA" = true
    ∧ (VALID_SUBGROUPS "CORP").contains "EMEA" = false := by
  set_option maxRecDepth 8000 in
  exact ⟨rfl, rfl, rfl⟩

/-- C6: a database record whose name does not start with the approved
prefix (`minerva`, case-insensitively, as enforced at construction) is
rejected: (i) construction fails and reports the naming error on
`database_name` regardless of the other fields, so no record exists to be
appended or serialized; (ii) the chat data-collection step leaves the
session store untouched for such input; and (iii) the centralized
governance naming check likewise rejects every name that starts with none
of its approved prefixes. -/
theorem glue_bad_name_rejected :
    (∀ (m : List (String × YVal)) (v : String),
      dictGet m "database_name" = some (.s v) →
      pyStartsWith (pyLower v) "minerva" = false →
      ∃ es, mkGlueDBPRInput m = .error es
        ∧ ("database_name",
            "Database name must start with 'minerva' (case-insensitive). Got: '"
              ++ v ++ "'") ∈ es)
    ∧ (∀ (st : SessionStore) (r : Nat) (session : SessionData)
        (user_input : String) (m : List (String × YVal)) (v : String),
      smart_parse_input user_input "glue_db" = .ok m →
      dictGet m "database_name" = some (.s v) →
      pyStartsWith (pyLower v) "minerva" = false →
      (chatCollectData st r session "glue_db" user_input).1 = st)
    ∧ (∀ nm : String,
      GovernanceRules.DATABASE_NAME_PATTERNS.all (fun p => !(pyStartsWith nm p)) = true →
      (GovernanceRules.validate_database_name nm).1 = false
        ∧ (GovernanceRules.validate_database_name nm).2.isSome = true) := by
  have core : ∀ (m : List (String × YVal)) (v : String),
      dictGet m "database_name" = some (.s v) →
      pyStartsWith (pyLower v) "minerva" = false →
      ∃ es, mkGlueDBPRInput m = .error es
        ∧ ("database_name",
            "Database name must start with 'minerva' (case-insensitive). Got: '"
              ++ v ++ "'") ∈ es := by
    intro m v hGet hBad
    have hName : (requireStr m "database_name").bind
        GlueDBPRInput.validate_database_name
        = .error ("Database name must start with 'minerva' (case-insensitive). Got: '"
            ++ v ++ "'") := by
      simp only [requireStr, requireField, hGet, Except.bind, strOfYVal,
        GlueDBPRInput.validate_database_name, hBad]
      rfl
    simp only [mkGlueDBPRInput, hName]
    have hmem : ("database_name",
        "Database name must start with 'minerva' (case-insensitive). Got: '"
          ++ v ++ "'") ∈
        ([errOf "intake_id" (requireStr m "intake_id"),
          errOf "database_name"
            ((Except.error ("Database name must start with 'minerva' (case-insensitive). Got: '"
              ++ v ++ "'") : Except String String)),
          errOf "database_s3_location"
            ((requireStr m "database_s3_location").bind GlueDBPRInput.validate_s3_location),
          errOf "database_description" (requireStr m "database_description"),
          errOf "aws_account_id"
            ((requireStr m "aws_account_id").bind GlueDBPRInput.validate_aws_account),
          errOf "source_name" (requireStr m "source_name"),
          errOf "enterprise_or_func_name"
            ((requireStr m "enterprise_or_func_name").bind
              GlueDBPRInput.validate_enterprise_function),
          errOf "enterprise_or_func_subgrp_name"
            ((requireStr m "enterprise_or_func_subgrp_name").bind
              (GlueDBPRInput.validate_subgroup
                (exceptToOption
                  ((requireStr m "enterprise_or_func_name").bind
                    GlueDBPRInput.validate_enterprise_function)))),
          errOf "region" ((requireStr m "region").bind GlueDBPRInput.validate_region),
          errOf "data_construct" (requireStr m "data_construct"),
          errOf "data_env" ((requireStr m "data_env").bind GlueDBPRInput.validate_environment),
          errOf "data_layer" ((requireStr m "data_layer").bind GlueDBPRInput.validate_data_layer),
          errOf "data_leader" (requireStr m "data_leader"),
          errOf "data_owner_email"
            ((requireStr m "data_owner_email").bind GlueDBPRInput.validate_email),
          errOf "data_owner_github_uname"
            (requireStr m "data_owner_github_uname")].reduceOption) := by
      rw [List.reduceOption_mem_iff]
      simp [errOf]
    refine ⟨_, ?_, hmem⟩
    rw [if_neg]
    simp [List.isEmpty_iff]
    exact List.ne_nil_of_mem hmem
  refine ⟨core, ?_, ?_⟩
  · intro st r session user_input m v hParse hGet hBad
    obtain ⟨es, hErr, _⟩ := core m v hGet hBad
    simp [chatCollectData, hParse, hErr]
  · intro nm hall
    have hAny : ∀ p ∈ GovernanceRules.DATABASE_NAME_PATTERNS,
        pyStartsWith nm p = false := by
      intro p hp
      have := (List.all_eq_true.mp hall) p hp
      simpa using this
    have hc : (!(GovernanceRules.DATABASE_NAME_PATTERNS.any
        (fun p => pyStartsWith nm p))) = true := by
      simp only [Bool.not_eq_true', List.any_eq_false]
      intro p hp
      simp [hAny p hp]
    unfold GovernanceRules.validate_database_name
    rw [if_pos hc]
    exact ⟨rfl, rfl⟩

/-- `glueOkMap` with a database name that has no approved prefix. -/
def glueBadNameMap : List (String × YVal) :=
  [("intake_id", .s "INT-1"), ("database_name", .s "sales_db"),
   ("database_s3_location", .s "s3://bkt/p"),
   ("database_description", .s "sales data"),
   ("aws_account_id", .s "123456789012"), ("source_name", .s "sap"),
   ("enterprise_or_func_name", .s "agtr"),
   ("enterprise_or_func_subgrp_name", .s "emea"),
   ("region", .s "us-east-1"), ("data_construct", .s "Source"),
   ("data_env", .s "dev"), ("data_layer", .s "raw"),
   ("data_leader", .s "Jane"), ("data_owner_email", .s "a@b.com"),
   ("data_owner_github_uname", .s "jane")]

/-- C6 witness: a Glue mapping with `database_name = "sales_db"` (no
approved prefix) is rejected with the naming error, the chat collection
step leaves the store untouched on such an input, and the governance
check rejects `sales_db` too. -/
theorem glue_bad_name_rejected_witness :
    (∃ es, mkGlueDBPRInput glueBadNameMap = .error es
      ∧ ("database_name",
          "Database name must start with 'minerva' (case-insensitive). Got: 'sales_db'") ∈ es)
    ∧ (chatCollectData emptyStore 0 freshSession "glue_db"
        "INT-1, sales_db, s3://bkt/p, sales data, 123456789012, sap, agtr, emea, us-east-1, Source, dev, raw, Jane, a@b.com, jane").1
      = emptyStore
    ∧ (GovernanceRules.validate_database_name "sales_db").1 = false := by
  set_option maxRecDepth 8000 in
  refine ⟨?_, ?_, ?_⟩
  · simpa using glue_bad_name_rejected.1 glueBadNameMap "sales_db" rfl rfl
  · exact glue_bad_name_rejected.2.1 emptyStore 0 freshSession
      "INT-1, sales_db, s3://bkt/p, sales data, 123456789012, sap, agtr, emea, us-east-1, Source, dev, raw, Jane, a@b.com, jane"
      _ "sales_db" rfl rfl rfl
  · exact (glue_bad_name_rejected.2.2 "sales_db" rfl).1

/-- Every member of a joined list occurs contiguously in the joined string. -/
theorem joinWith_mem_decomp (sep : String) (l : List String) (p : String)
    (hp : p ∈ l) :
    ∃ pre post, (joinWith sep l).data = pre ++ (p.data ++ post) := by
  induction l with
  | nil => cases hp
  | cons x t ih =>
    rcases List.mem_cons.mp hp with h | h
    · subst h
      cases t with
      | nil => exact ⟨[], [], by simp [joinWith]⟩
      | cons y t' =>
        exact ⟨[], (sep ++ joinWith sep (y :: t')).data, by
          simp [joinWith, String.data_append, List.append_assoc]⟩
    · cases t with
      | nil => cases h
      | cons y t' =>
        obtain ⟨pre, post, hj⟩ := ih h
        exact ⟨(x ++ sep).data ++ pre, post, by
          simp [joinWith, String.data_append, List.append_assoc, hj]⟩

/-- C2 (amended): whenever the working copy has untracked files or
unstaged modifications outside `intake_configs/`, the publish aborts
before any git command: the effect list is empty, the result is the
preflight failure message, and that message names every offending path.
(Changes already staged in the index — also uncommitted — do not trigger
the abort; see the counterexample.) -/
theorem preflight_dirty_abort
    (repoState : RepoState) (glue_dbs : List GlueDBPRInput)
    (s3_buckets : List S3BucketPRInput) (iam_roles : List IAMRolePRInput)
    (pr_title : String) (fork_owner : Option String) (repo_name : String)
    (outcome : HttpOutcome) (existingUrl : Option String)
    (h : (repoState.untracked ++ repoState.modifiedUnstaged).filter
        (fun f => !(pyStartsWith f "intake_configs/")) ≠ []) :
    (create_multi_resource_pr repoState glue_dbs s3_buckets iam_roles pr_title
        fork_owner repo_name outcome existingUrl).2 = []
    ∧ (create_multi_resource_pr repoState glue_dbs s3_buckets iam_roles pr_title
        fork_owner repo_name outcome existingUrl).1
      = "❌ Failed: Repository has uncommitted changes: "
        ++ joinWith ", " ((repoState.untracked ++ repoState.modifiedUnstaged).filter
            (fun f => !(pyStartsWith f "intake_configs/")))
        ++ "\nPlease commit or stash them first."
    ∧ ∀ p ∈ (repoState.untracked ++ repoState.modifiedUnstaged).filter
        (fun f => !(pyStartsWith f "intake_configs/")),
      pyContains (create_multi_resource_pr repoState glue_dbs s3_buckets iam_roles
        pr_title fork_owner repo_name outcome existingUrl).1 p = true := by
  have hbase : repoState.untracked ++ repoState.modifiedUnstaged ≠ [] := by
    intro h0
    exact h (by rw [h0]; rfl)
  have hDirty : isDirty repoState = true := by
    by_cases hu : repoState.untracked = []
    · have hm : repoState.modifiedUnstaged ≠ [] := by
        intro hm0
        exact hbase (by rw [hu, hm0]; rfl)
      simp [isDirty, List.isEmpty_iff, hm]
    · simp [isDirty, List.isEmpty_iff, hu]
  have h2 : (!((repoState.untracked ++ repoState.modifiedUnstaged).filter
      (fun f => !(pyStartsWith f "intake_configs/"))).isEmpty) = true := by
    cases hfe : (repoState.untracked ++ repoState.modifiedUnstaged).filter
        (fun f => !(pyStartsWith f "intake_configs/")) with
    | nil => exact absurd hfe h
    | cons a t => rfl
  simp only [create_multi_resource_pr]
  rw [if_pos hDirty, if_pos h2]
  refine ⟨rfl, rfl, ?_⟩
  intro p hp
  obtain ⟨pre, post, hj⟩ := joinWith_mem_decomp ", " _ p hp
  apply pyContains_of_data _ _
    (("❌ Failed: Repository has uncommitted changes: ").data ++ pre)
    (post ++ ("\nPlease commit or stash them first.").data)
  simp only [String.data_append, hj, List.append_assoc]

/-- C2 witness: one untracked file outside `intake_configs/`. -/
theorem preflight_dirty_abort_witness :
    (create_multi_resource_pr
        { untracked := ["notes.txt"], modifiedUnstaged := [], stagedUncommitted := [] }
        [] [] [] "Add things" (some "user") "org/repo" (.created "u") none).2 = []
    ∧ (create_multi_resource_pr
        { untracked := ["notes.txt"], modifiedUnstaged := [], stagedUncommitted := [] }
        [] [] [] "Add things" (some "user") "org/repo" (.created "u") none).1
      = "❌ Failed: Repository has uncommitted changes: "
        ++ joinWith ", " (((["notes.txt"] : List String) ++ []).filter
            (fun f => !(pyStartsWith f "intake_configs/")))
        ++ "\nPlease commit or stash them first."
    ∧ ∀ p ∈ ((["notes.txt"] : List String) ++ []).filter
        (fun f => !(pyStartsWith f "intake_configs/")),
      pyContains (create_multi_resource_pr
        { untracked := ["notes.txt"], modifiedUnstaged := [], stagedUncommitted := [] }
        [] [] [] "Add things" (some "user") "org/repo" (.created "u") none).1 p = true :=
  preflight_dirty_abort
    { untracked := ["notes.txt"], modifiedUnstaged := [], stagedUncommitted := [] }
    [] [] [] "Add things" (some "user") "org/repo" (.created "u") none (by decide)

/-- A validated Glue database record (the construction result of
`glueOkMap`, with normalized codes). -/
def glueRec0 : GlueDBPRInput :=
  { intake_id := "INT-1", database_name := "minerva_sales",
    database_s3_location := "s3://bkt/p", database_description := "sales data",
    aws_account_id := "123456789012", source_name := "sap",
    enterprise_or_func_name := "AGTR", enterprise_or_func_subgrp_name := "EMEA",
    region := "us-east-1", data_construct := "Source", data_env := "dev",
    data_layer := "raw", data_leader := "Jane", data_owner_email := "a@b.com",
    data_owner_github_uname := "jane" }

/-- C2 counterexample: a working copy whose only uncommitted change is a
file staged in the index (`git add`ed, not committed) outside
`intake_configs/`.  `is_dirty` sees it, but it appears neither among the
untracked files nor in `index.diff(None)`, so the collected path list is
empty and the publish proceeds and mutates the repository instead of
aborting — the claim's "aborts ... for every uncommitted change" is false
at this input. -/
theorem preflight_staged_change_ignored :
    isDirty { untracked := [], modifiedUnstaged := [], stagedUncommitted := ["secret.txt"] }
      = true
    ∧ pyStartsWith "secret.txt" "intake_configs/" = false
    ∧ (create_multi_resource_pr
        { untracked := [], modifiedUnstaged := [], stagedUncommitted := ["secret.txt"] }
        [glueRec0] [] [] "Add sales data" (some "user") "org/repo"
        (.created "https://github.com/org/repo/pull/1") none).2.isEmpty = false
    ∧ (create_multi_resource_pr
        { untracked := [], modifiedUnstaged := [], stagedUncommitted := ["secret.txt"] }
        [glueRec0] [] [] "Add sales data" (some "user") "org/repo"
        (.created "https://github.com/org/repo/pull/1") none).1
      = publishSuccessMsg 1 0 0 "Add sales data"
          "https://github.com/org/repo/pull/1" := by
  set_option maxRecDepth 8000 in
  exact ⟨rfl, by decide, rfl, rfl⟩

/-- Commit-effect test. -/
def isCommitEff : GitEffect → Bool
  | .commit _ => true
  | _ => false

/-- Stage-effect test. -/
def isStageEff : GitEffect → Bool
  | .stageFiles _ => true
  | _ => false

/-- Push-effect test. -/
def isPushEff : GitEffect → Bool
  | .push _ _ => true
  | _ => false

/-- C1: when steps 1–5 succeed (clean tree; commit and push effects do
occur) and the remote reports an equivalent open pull request, the
function returns the generic `❌ Failed: name 'session' is not defined`
instead of the conflict (successful-with-caveat) message: line 240 of
`api.py` assigns into the undefined name `session` (absent from the module
globals), raising `NameError` before the conflict response can be
returned. -/
theorem publish_conflict_returns_failure :
    (create_multi_resource_pr
        { untracked := [], modifiedUnstaged := [], stagedUncommitted := [] }
        [glueRec0] [] [] "Add sales data" (some "user") "org/upstream"
        (.status422 "Validation Failed: A pull request already exists for user:dev.")
        (some "https://github.com/org/upstream/pull/7")).1
      = "❌ Failed: name 'session' is not defined"
    ∧ (create_multi_resource_pr
        { untracked := [], modifiedUnstaged := [], stagedUncommitted := [] }
        [glueRec0] [] [] "Add sales data" (some "user") "org/upstream"
        (.status422 "Validation Failed: A pull request already exists for user:dev.")
        (some "https://github.com/org/upstream/pull/7")).1
      ≠ publishConflictMsg 1 0 0
    ∧ apiModuleGlobals.contains "session" = false
    ∧ (create_multi_resource_pr
        { untracked := [], modifiedUnstaged := [], stagedUncommitted := [] }
        [glueRec0] [] [] "Add sales data" (some "user") "org/upstream"
        (.status422 "Validation Failed: A pull request already exists for user:dev.")
        (some "https://github.com/org/upstream/pull/7")).2.any isCommitEff = true
    ∧ (create_multi_resource_pr
        { untracked := [], modifiedUnstaged := [], stagedUncommitted := [] }
        [glueRec0] [] [] "Add sales data" (some "user") "org/upstream"
        (.status422 "Validation Failed: A pull request already exists for user:dev.")
        (some "https://github.com/org/upstream/pull/7")).2.any isPushEff = true := by
  set_option maxRecDepth 8000 in
  exact ⟨rfl, by decide, rfl, rfl, rfl⟩

/-! ### Strip lemmas for the commit message -/

theorem dropWhile_append_all (p : Char → Bool) (a b : List Char)
    (h : ∀ c ∈ a, p c = true) :
    (a ++ b).dropWhile p = b.dropWhile p := by
  induction a with
  | nil => rfl
  | cons c cs ih =>
    have hc := h c (List.mem_cons_self c cs)
    simp only [List.cons_append, List.dropWhile_cons, hc, if_true]
    exact ih (fun x hx => h x (List.mem_cons_of_mem c hx))

theorem dropWhile_head_neg (p : Char → Bool) (l : List Char)
    (hl : l ≠ []) (hh : p (l.headD ' ') = false) :
    l.dropWhile p = l := by
  cases l with
  | nil => rfl
  | cons c cs =>
    simp only [List.headD_cons] at hh
    simp [List.dropWhile_cons, hh]

theorem stripList_clean (l post : List Char) (hl : l ≠ [])
    (hh : isPySpace (l.headD ' ') = false)
    (hr : isPySpace (l.reverse.headD ' ') = false)
    (hpost : ∀ c ∈ post, isPySpace c = true) :
    stripList (l ++ post) = l := by
  unfold stripList
  have h1 : (l ++ post).dropWhile isPySpace = l ++ post := by
    cases l with
    | nil => exact absurd rfl hl
    | cons c cs =>
      simp only [List.headD_cons] at hh
      simp [List.dropWhile_cons, hh]
  rw [h1, List.reverse_append]
  have h2 : (post.reverse ++ l.reverse).dropWhile isPySpace = l.reverse := by
    rw [dropWhile_append_all isPySpace post.reverse l.reverse
      (fun c hc => hpost c (List.mem_reverse.mp hc))]
    exact dropWhile_head_neg isPySpace l.reverse
      (by simpa using hl) hr
  rw [h2, List.reverse_reverse]

theorem length_dropWhile_le' (p : Char → Bool) (l : List Char) :
    (l.dropWhile p).length ≤ l.length := by
  induction l with
  | nil => simp
  | cons c cs ih =>
    rw [List.dropWhile_cons]
    split
    · exact le_trans ih (by simp)
    · simp

theorem strip_self_clean (s : String) (h : pyStrip s = s) (hne : s ≠ "") :
    isPySpace (s.data.headD ' ') = false
      ∧ isPySpace (s.data.reverse.headD ' ') = false := by
  have hd : stripList s.data = s.data := congrArg String.data h
  have hne' : s.data ≠ [] := by
    intro h0
    apply hne
    cases s with
    | mk d =>
      simp only at h0
      subst h0
      rfl
  have hlen := congrArg List.length hd
  have hhead : isPySpace (s.data.headD ' ') = false := by
    cases hds : s.data with
    | nil => exact absurd hds hne'
    | cons c cs =>
      simp only [List.headD_cons]
      by_contra hc
      have hc' : isPySpace c = true := by simpa using hc
      have hle : (stripList (c :: cs)).length ≤ cs.length := by
        unfold stripList
        have hdw : (c :: cs).dropWhile isPySpace = cs.dropWhile isPySpace := by
          simp [List.dropWhile_cons, hc']
        calc (((c :: cs).dropWhile isPySpace).reverse.dropWhile isPySpace).reverse.length
            = (((c :: cs).dropWhile isPySpace).reverse.dropWhile isPySpace).length := by
              rw [List.length_reverse]
          _ ≤ ((c :: cs).dropWhile isPySpace).reverse.length :=
              length_dropWhile_le' _ _
          _ = ((c :: cs).dropWhile isPySpace).length := by rw [List.length_reverse]
          _ = (cs.dropWhile isPySpace).length := by rw [hdw]
          _ ≤ cs.length := length_dropWhile_le' _ _
      rw [hds] at hlen
      simp only [List.length_cons] at hlen
      omega
  refine ⟨hhead, ?_⟩
  have hfix : s.data.dropWhile isPySpace = s.data :=
    dropWhile_head_neg isPySpace s.data hne' hhead
  cases hds : s.data.reverse with
  | nil => simp_all
  | cons c cs =>
    simp only [List.headD_cons]
    by_contra hc
    have hc' : isPySpace c = true := by simpa using hc
    have hstrip : stripList s.data = (s.data.reverse.dropWhile isPySpace).reverse := by
      unfold stripList
      rw [hfix]
    have hle : (stripList s.data).length ≤ cs.length := by
      rw [hstrip, hds]
      calc ((c :: cs).dropWhile isPySpace).reverse.length
          = ((c :: cs).dropWhile isPySpace).length := by rw [List.length_reverse]
        _ = (cs.dropWhile isPySpace).length := by simp [List.dropWhile_cons, hc']
        _ ≤ cs.length := length_dropWhile_le' _ _
    have hlen2 : s.data.length = cs.length + 1 := by
      have h3 := congrArg List.length hds
      simpa using h3
    omega

/-- The per-kind count summary lines of the commit message: one line per
resource kind with at least one record, none for empty kinds. -/
def perKindLines (nG nS nI : Nat) : List String :=
  (if nG ≠ 0 then ["- Added " ++ toString nG ++ " Glue Database(s)"] else [])
  ++ (if nS ≠ 0 then ["- Added " ++ toString nS ++ " S3 Bucket(s)"] else [])
  ++ (if nI ≠ 0 then ["- Added " ++ toString nI ++ " IAM Role(s)"] else [])

theorem headD_append (a b : List Char) (d : Char) (ha : a ≠ []) :
    (a ++ b).headD d = a.headD d := by
  cases a with
  | nil => exact absurd rfl ha
  | cons c cs => rfl

/-- The raw conditional summary block equals the joined summary lines plus
one trailing newline, at the character level. -/
theorem linesData_eq (nG nS nI : Nat) (h : ¬(nG = 0 ∧ nS = 0 ∧ nI = 0)) :
    (if nG ≠ 0 then ("- Added " ++ toString nG ++ " Glue Database(s)\n" : String).data else [])
    ++ ((if nS ≠ 0 then ("- Added " ++ toString nS ++ " S3 Bucket(s)\n" : String).data else [])
    ++ (if nI ≠ 0 then ("- Added " ++ toString nI ++ " IAM Role(s)\n" : String).data else []))
    = (joinWith "\n" (perKindLines nG nS nI)).data ++ ['\n'] := by
  have hG : (" Glue Database(s)\n" : String).data
      = (" Glue Database(s)" : String).data ++ ['\n'] := rfl
  have hS : (" S3 Bucket(s)\n" : String).data
      = (" S3 Bucket(s)" : String).data ++ ['\n'] := rfl
  have hI : (" IAM Role(s)\n" : String).data
      = (" IAM Role(s)" : String).data ++ ['\n'] := rfl
  have hNL : ("\n" : String).data = ['\n'] := rfl
  by_cases h1 : nG = 0 <;> by_cases h2 : nS = 0 <;> by_cases h3 : nI = 0 <;>
    simp_all [perKindLines, joinWith, String.data_append, hG, hS, hI, hNL,
      List.append_assoc]

/-- The last character of each summary line is `)`. -/
theorem summary_line_last (a : String) (lit : String) (hl : lit.data ≠ [])
    (hc : lit.data.reverse.headD ' ' = ')') :
    ((a ++ lit) : String).data.reverse.headD ' ' = ')' := by
  rw [String.data_append, List.reverse_append]
  rw [headD_append _ _ _ (by simpa using hl)]
  exact hc

theorem last_paren_ne_nil {l : List Char} (hc : l.reverse.headD ' ' = ')') :
    l ≠ [] := by
  intro h0
  subst h0
  simp at hc

theorem last_paren_append (a b : List Char) (hb : b ≠ [])
    (hcb : b.reverse.headD ' ' = ')') :
    (a ++ b).reverse.headD ' ' = ')' := by
  rw [List.reverse_append, headD_append _ _ _ (by simpa using hb)]
  exact hcb

/-- A nonempty join of `)`-terminated lines is nonempty and `)`-terminated. -/
theorem joinWith_last (sep : String) (ls : List String)
    (hlast : ∀ l ∈ ls, l.data.reverse.headD ' ' = ')') (hne : ls ≠ []) :
    (joinWith sep ls).data ≠ []
      ∧ (joinWith sep ls).data.reverse.headD ' ' = ')' := by
  induction ls with
  | nil => exact absurd rfl hne
  | cons x t ih =>
    cases t with
    | nil =>
      have hx := hlast x (by simp)
      exact ⟨last_paren_ne_nil hx, hx⟩
    | cons y t' =>
      have ih' := ih (fun l hl => hlast l (List.mem_cons_of_mem x hl)) (by simp)
      have hstep : (joinWith sep (x :: y :: t')).data
          = (x ++ sep).data ++ (joinWith sep (y :: t')).data := by
        rw [show joinWith sep (x :: y :: t') = x ++ sep ++ joinWith sep (y :: t')
          from rfl]
        rw [String.data_append]
      constructor
      · rw [hstep]
        intro h0
        exact ih'.1 (List.append_eq_nil.mp h0).2
      · rw [hstep]
        exact last_paren_append _ _ ih'.1 ih'.2

/-- Every per-kind line ends in `)`. -/
theorem perKindLines_last (nG nS nI : Nat) :
    ∀ l ∈ perKindLines nG nS nI, l.data.reverse.headD ' ' = ')' := by
  have lineG : (("- Added " ++ toString nG ++ " Glue Database(s)") :
      String).data.reverse.headD ' ' = ')' :=
    summary_line_last _ " Glue Database(s)" (by decide) (by decide)
  have lineS : (("- Added " ++ toString nS ++ " S3 Bucket(s)") :
      String).data.reverse.headD ' ' = ')' :=
    summary_line_last _ " S3 Bucket(s)" (by decide) (by decide)
  have lineI : (("- Added " ++ toString nI ++ " IAM Role(s)") :
      String).data.reverse.headD ' ' = ')' :=
    summary_line_last _ " IAM Role(s)" (by decide) (by decide)
  intro l hl
  simp only [perKindLines, List.mem_append] at hl
  rcases hl with (hl | hl) | hl <;> split at hl <;>
    simp_all

/-- At least one non-zero count makes the summary nonempty. -/
theorem perKindLines_ne_nil (nG nS nI : Nat)
    (h : ¬(nG = 0 ∧ nS = 0 ∧ nI = 0)) : perKindLines nG nS nI ≠ [] := by
  intro h0
  by_cases h1 : nG = 0 <;> by_cases h2 : nS = 0 <;> by_cases h3 : nI = 0 <;>
    simp_all [perKindLines]

/-- The commit message of a non-empty publish is exactly the title, a blank
line, and the joined per-kind summary lines. -/
theorem publishCommitMsg_clean (nG nS nI : Nat) (title : String)
    (htitle : pyStrip title = title) (hne : title ≠ "")
    (hkinds : ¬(nG = 0 ∧ nS = 0 ∧ nI = 0)) :
    publishCommitMsg nG nS nI title
      = title ++ "\n\n" ++ joinWith "\n" (perKindLines nG nS nI) := by
  obtain ⟨hh, hr⟩ := strip_self_clean title htitle hne
  obtain ⟨hSne, hSlast⟩ := joinWith_last "\n" (perKindLines nG nS nI)
    (perKindLines_last nG nS nI) (perKindLines_ne_nil nG nS nI hkinds)
  have hTne : title.data ≠ [] := by
    intro h0
    apply hne
    cases title with
    | mk d =>
      simp only at h0
      subst h0
      rfl
  apply String.ext
  show stripList (title ++ "\n\n"
      ++ (if nG ≠ 0 then "- Added " ++ toString nG ++ " Glue Database(s)\n" else "")
      ++ (if nS ≠ 0 then "- Added " ++ toString nS ++ " S3 Bucket(s)\n" else "")
      ++ (if nI ≠ 0 then "- Added " ++ toString nI ++ " IAM Role(s)\n" else "")).data
    = (title ++ "\n\n" ++ joinWith "\n" (perKindLines nG nS nI)).data
  have hX : (title ++ "\n\n"
      ++ (if nG ≠ 0 then "- Added " ++ toString nG ++ " Glue Database(s)\n" else "")
      ++ (if nS ≠ 0 then "- Added " ++ toString nS ++ " S3 Bucket(s)\n" else "")
      ++ (if nI ≠ 0 then "- Added " ++ toString nI ++ " IAM Role(s)\n" else "")).data
      = (title.data ++ (("\n\n" : String).data
          ++ (joinWith "\n" (perKindLines nG nS nI)).data)) ++ ['\n'] := by
    by_cases h1 : nG = 0 <;> by_cases h2 : nS = 0 <;> by_cases h3 : nI = 0 <;>
      simp_all [perKindLines, joinWith, String.data_append, List.append_assoc]
  rw [hX]
  have hl : title.data ++ (("\n\n" : String).data
      ++ (joinWith "\n" (perKindLines nG nS nI)).data) ≠ [] := by
    simp [hTne]
  rw [stripList_clean _ ['\n'] hl ?hhead ?hlast ?hpost]
  · simp [String.data_append, List.append_assoc]
  case hhead =>
    rw [headD_append _ _ _ hTne]
    exact hh
  case hlast =>
    rw [List.reverse_append, List.reverse_append]
    rw [headD_append _ _ _ (by simp [hSne])]
    rw [headD_append _ _ _ (by simpa using hSne)]
    rw [hSlast]
    rfl
  case hpost =>
    intro c hc
    simp only [List.mem_singleton] at hc
    subst hc
    rfl

/-- The path written by a write effect. -/
def writePathOf : GitEffect → Option String
  | .writeFile p _ => some p
  | _ => none

/-- With a clean preflight, the publish proceeds past the check unchanged. -/
theorem cmr_clean (repoState : RepoState) (glue_dbs : List GlueDBPRInput)
    (s3_buckets : List S3BucketPRInput) (iam_roles : List IAMRolePRInput)
    (pr_title : String) (fork_owner : Option String) (repo_name : String)
    (outcome : HttpOutcome) (existingUrl : Option String)
    (hclean : (repoState.untracked ++ repoState.modifiedUnstaged).filter
        (fun f => !(pyStartsWith f "intake_configs/")) = []) :
    create_multi_resource_pr repoState glue_dbs s3_buckets iam_roles pr_title
        fork_owner repo_name outcome existingUrl
      = publishAfterPreflight glue_dbs s3_buckets iam_roles pr_title fork_owner
          repo_name outcome existingUrl := by
  unfold create_multi_resource_pr
  split
  · rw [if_neg]
    rw [hclean]
    simp
  · rfl

/-- A filter that rejects directory creation and file writes skips a write
segment entirely. -/
theorem filter_writes_eq_nil (p : GitEffect → Bool)
    (hmk : ∀ d, p (GitEffect.makedirs d) = false)
    (hwf : ∀ a b, p (GitEffect.writeFile a b) = false)
    (c : Prop) [Decidable c] (dir : String) (l : List (String × String)) :
    ((if c then ([] : List GitEffect)
      else GitEffect.makedirs dir
        :: l.map (fun q => GitEffect.writeFile q.1 q.2)).filter p) = [] := by
  split
  · rfl
  · simp only [List.filter_cons, hmk]
    induction l with
    | nil => rfl
    | cons q t ih => simpa [List.filter_cons, hwf] using ih

/-- Write effects project back to exactly the written paths. -/
theorem filterMap_writePathOf_map (l : List (String × String)) :
    ((l.map (fun q => GitEffect.writeFile q.1 q.2)).filterMap writePathOf)
      = l.map (·.1) := by
  induction l with
  | nil => rfl
  | cons q t ih => simp [List.filterMap_cons, writePathOf, ih]

/-- A write segment's paths are the mapped paths (empty if its kind is). -/
theorem filterMap_writeSegment (c : Prop) [Decidable c] (dir : String)
    (l : List (String × String)) (hc : c → l = []) :
    ((if c then ([] : List GitEffect)
      else GitEffect.makedirs dir
        :: l.map (fun q => GitEffect.writeFile q.1 q.2)).filterMap writePathOf)
      = l.map (·.1) := by
  split
  · rename_i h
    rw [hc h]
    rfl
  · rw [List.filterMap_cons]
    simp only [writePathOf]
    exact filterMap_writePathOf_map l

/-- `publishAfterPreflight` issues the same commands whatever the PR
creation outcome. -/
theorem publishAfterPreflight_snd (glue_dbs : List GlueDBPRInput)
    (s3_buckets : List S3BucketPRInput) (iam_roles : List IAMRolePRInput)
    (pr_title : String) (fork_owner : Option String) (repo_name : String)
    (outcome : HttpOutcome) (existingUrl : Option String) :
    (publishAfterPreflight glue_dbs s3_buckets iam_roles pr_title fork_owner
      repo_name outcome existingUrl).2
      = publishEffs glue_dbs s3_buckets iam_roles pr_title := by
  unfold publishAfterPreflight
  cases create_pull_request fork_owner repo_name outcome existingUrl with
  | ok url => rfl
  | error msg =>
    simp only
    split_ifs <;> rfl

/-- Exactly one staging command, staging `created_files`. -/
theorem publishEffs_filter_stage (glue_dbs : List GlueDBPRInput)
    (s3_buckets : List S3BucketPRInput) (iam_roles : List IAMRolePRInput)
    (pr_title : String) :
    (publishEffs glue_dbs s3_buckets iam_roles pr_title).filter isStageEff
      = [GitEffect.stageFiles (createdFilesOf glue_dbs s3_buckets iam_roles)] := by
  unfold publishEffs writeEffsOf
  simp only [List.filter_append]
  rw [filter_writes_eq_nil isStageEff (fun d => rfl) (fun a b => rfl),
    filter_writes_eq_nil isStageEff (fun d => rfl) (fun a b => rfl),
    filter_writes_eq_nil isStageEff (fun d => rfl) (fun a b => rfl)]
  simp [isStageEff, List.filter_cons]

/-- Exactly one commit command, with the built commit message. -/
theorem publishEffs_filter_commit (glue_dbs : List GlueDBPRInput)
    (s3_buckets : List S3BucketPRInput) (iam_roles : List IAMRolePRInput)
    (pr_title : String) :
    (publishEffs glue_dbs s3_buckets iam_roles pr_title).filter isCommitEff
      = [GitEffect.commit (publishCommitMsg glue_dbs.length s3_buckets.length
          iam_roles.length pr_title)] := by
  unfold publishEffs writeEffsOf
  simp only [List.filter_append]
  rw [filter_writes_eq_nil isCommitEff (fun d => rfl) (fun a b => rfl),
    filter_writes_eq_nil isCommitEff (fun d => rfl) (fun a b => rfl),
    filter_writes_eq_nil isCommitEff (fun d => rfl) (fun a b => rfl)]
  simp [isCommitEff, List.filter_cons]

/-- The written paths of the command sequence are `created_files`. -/
theorem publishEffs_filterMap_write (glue_dbs : List GlueDBPRInput)
    (s3_buckets : List S3BucketPRInput) (iam_roles : List IAMRolePRInput)
    (pr_title : String) :
    (publishEffs glue_dbs s3_buckets iam_roles pr_title).filterMap writePathOf
      = createdFilesOf glue_dbs s3_buckets iam_roles := by
  unfold publishEffs writeEffsOf createdFilesOf
  simp only [List.filterMap_append]
  rw [filterMap_writeSegment _ _ (glueWriteList glue_dbs)
      (fun h => by unfold glueWriteList; rw [List.isEmpty_iff.mp h]; rfl),
    filterMap_writeSegment _ _ (s3WriteList s3_buckets)
      (fun h => by unfold s3WriteList; rw [List.isEmpty_iff.mp h]; rfl),
    filterMap_writeSegment _ _ (iamWriteList iam_roles)
      (fun h => by unfold iamWriteList; rw [List.isEmpty_iff.mp h]; rfl)]
  simp [writePathOf, List.filterMap_cons, List.append_assoc]

/-- C7: on a publish that reaches PR creation successfully, exactly the
files written in the materialization step are staged (one staging command,
listing precisely the paths of the write commands), and exactly one commit
is created, whose message is the caller-supplied title followed by one
per-kind count line for each non-empty kind and no line for empty kinds. -/
theorem publish_stage_commit (repoState : RepoState)
    (glue_dbs : List GlueDBPRInput) (s3_buckets : List S3BucketPRInput)
    (iam_roles : List IAMRolePRInput) (pr_title : String) (owner : String)
    (repo_name : String) (url : String) (existingUrl : Option String)
    (hclean : (repoState.untracked ++ repoState.modifiedUnstaged).filter
        (fun f => !(pyStartsWith f "intake_configs/")) = [])
    (htitle : pyStrip pr_title = pr_title) (hne : pr_title ≠ "")
    (hkinds : ¬(glue_dbs = [] ∧ s3_buckets = [] ∧ iam_roles = [])) :
    (create_multi_resource_pr repoState glue_dbs s3_buckets iam_roles pr_title
        (some owner) repo_name (.created url) existingUrl).1
      = publishSuccessMsg glue_dbs.length s3_buckets.length iam_roles.length
          pr_title url
    ∧ (create_multi_resource_pr repoState glue_dbs s3_buckets iam_roles pr_title
        (some owner) repo_name (.created url) existingUrl).2.filter isStageEff
      = [GitEffect.stageFiles
          ((create_multi_resource_pr repoState glue_dbs s3_buckets iam_roles
            pr_title (some owner) repo_name (.created url) existingUrl).2.filterMap
              writePathOf)]
    ∧ (create_multi_resource_pr repoState glue_dbs s3_buckets iam_roles pr_title
        (some owner) repo_name (.created url) existingUrl).2.filter isCommitEff
      = [GitEffect.commit (pr_title ++ "\n\n"
          ++ joinWith "\n" (perKindLines glue_dbs.length s3_buckets.length
              iam_roles.length))] := by
  have hnum : ¬(glue_dbs.length = 0 ∧ s3_buckets.length = 0
      ∧ iam_roles.length = 0) := by
    intro ⟨a, b, c⟩
    exact hkinds ⟨List.length_eq_zero.mp a, List.length_eq_zero.mp b,
      List.length_eq_zero.mp c⟩
  rw [cmr_clean repoState glue_dbs s3_buckets iam_roles pr_title (some owner)
    repo_name (.created url) existingUrl hclean]
  rw [publishAfterPreflight_snd]
  refine ⟨rfl, ?_, ?_⟩
  · rw [publishEffs_filter_stage, publishEffs_filterMap_write]
  · rw [publishEffs_filter_commit,
      publishCommitMsg_clean glue_dbs.length s3_buckets.length iam_roles.length
        pr_title htitle hne hnum]

/-- C7 witness: one Glue record, clean tree, created PR. -/
theorem publish_stage_commit_witness :
    (create_multi_resource_pr { untracked := [], modifiedUnstaged := [], stagedUncommitted := [] } [glueRec0] [] [] "Add sales data"
        (some "user") "org/repo" (.created "https://x/pull/1") none).1
      = publishSuccessMsg 1 0 0 "Add sales data" "https://x/pull/1"
    ∧ (create_multi_resource_pr { untracked := [], modifiedUnstaged := [], stagedUncommitted := [] } [glueRec0] [] [] "Add sales data"
        (some "user") "org/repo" (.created "https://x/pull/1") none).2.filter
          isStageEff
      = [GitEffect.stageFiles
          ((create_multi_resource_pr { untracked := [], modifiedUnstaged := [], stagedUncommitted := [] } [glueRec0] [] [] "Add sales data"
            (some "user") "org/repo" (.created "https://x/pull/1") none).2.filterMap
              writePathOf)]
    ∧ (create_multi_resource_pr { untracked := [], modifiedUnstaged := [], stagedUncommitted := [] } [glueRec0] [] [] "Add sales data"
        (some "user") "org/repo" (.created "https://x/pull/1") none).2.filter
          isCommitEff
      = [GitEffect.commit ("Add sales data" ++ "\n\n"
          ++ joinWith "\n" (perKindLines 1 0 0))] :=
  publish_stage_commit { untracked := [], modifiedUnstaged := [], stagedUncommitted := [] } [glueRec0] [] [] "Add sales data" "user"
    "org/repo" "https://x/pull/1" none rfl (by decide) (by decide)
    (by simp)

/-! ### Round-trip lemmas -/

theorem escChar_cases (c : Char) (h1 : c ≠ '\\') (h2 : c ≠ '"') (h3 : c ≠ '\n') :
    escChar c = [c] := by
  rw [escChar.eq_def]
  split <;> simp_all

theorem escChar_ne_nl (c : Char) : '\n' ∉ escChar c := by
  by_cases h1 : c = '\\'
  · subst h1; decide
  · by_cases h2 : c = '"'
    · subst h2; decide
    · by_cases h3 : c = '\n'
      · subst h3; decide
      · rw [escChar_cases c h1 h2 h3]
        simp [ne_comm]
        exact fun h => h3 h

theorem dqBody_cons_other (c : Char) (t : List Char) (h1 : c ≠ '\\') (h2 : c ≠ '"') :
    dqBody (c :: t) = (dqBody t).map (fun p => (c :: p.1, p.2)) := by
  rw [dqBody.eq_def]
  split <;> simp_all

theorem dqBody_flatMap (l r : List Char) :
    dqBody (l.flatMap escChar ++ '"' :: r) = some (l, r) := by
  induction l with
  | nil => rfl
  | cons c cs ih =>
    rw [List.flatMap_cons]
    by_cases h1 : c = '\\'
    · subst h1
      show dqBody ('\\' :: '\\' :: (cs.flatMap escChar ++ '"' :: r)) = _
      rw [show ∀ u, dqBody ('\\' :: '\\' :: u) = (dqBody u).map (fun p => ('\\' :: p.1, p.2))
          from fun u => rfl, ih]
      rfl
    · by_cases h2 : c = '"'
      · subst h2
        show dqBody ('\\' :: '"' :: (cs.flatMap escChar ++ '"' :: r)) = _
        rw [show ∀ u, dqBody ('\\' :: '"' :: u) = (dqBody u).map (fun p => ('"' :: p.1, p.2))
            from fun u => rfl, ih]
        rfl
      · by_cases h3 : c = '\n'
        · subst h3
          show dqBody ('\\' :: 'n' :: (cs.flatMap escChar ++ '"' :: r)) = _
          rw [show ∀ u, dqBody ('\\' :: 'n' :: u) = (dqBody u).map (fun p => ('\n' :: p.1, p.2))
              from fun u => rfl, ih]
          rfl
        · rw [escChar_cases c h1 h2 h3]
          simp only [List.cons_append, List.nil_append]
          rw [dqBody_cons_other c _ h1 h2, ih]
          rfl

theorem digitChar_isDigit (d : Nat) : isAsciiDigit (digitChar d) = true := by
  match d with
  | 0 | 1 | 2 | 3 | 4 | 5 | 6 | 7 | 8 => decide
  | n + 9 =>
    have h9 : digitChar (n + 9) = '9' := rfl
    rw [h9]
    decide

theorem digitVal_digitChar (d : Nat) (h : d < 10) : digitVal (digitChar d) = d := by
  interval_cases d <;> decide

theorem natDigitsCore_append (n : Nat) : ∀ acc, natDigitsCore n acc = natDigitsCore n [] ++ acc := by
  induction n using Nat.strong_induction_on with
  | _ n ih =>
    intro acc
    match n with
    | 0 => simp [natDigitsCore]
    | m + 1 =>
      have hlt : (m + 1) / 10 < m + 1 := Nat.div_lt_self (Nat.succ_pos m) (by omega)
      rw [natDigitsCore, ih ((m + 1) / 10) hlt (digitChar ((m + 1) % 10) :: acc)]
      conv_rhs => rw [natDigitsCore, ih ((m + 1) / 10) hlt [digitChar ((m + 1) % 10)]]
      simp

theorem natFromDigits_append_single (xs : List Char) (c : Char) :
    natFromDigits (xs ++ [c]) = natFromDigits xs * 10 + digitVal c := by
  simp [natFromDigits, List.foldl_append]

theorem natFromDigits_core (n : Nat) : natFromDigits (natDigitsCore n []) = n := by
  induction n using Nat.strong_induction_on with
  | _ n ih =>
    match n with
    | 0 => simp [natDigitsCore, natFromDigits]
    | m + 1 =>
      have hlt : (m + 1) / 10 < m + 1 := Nat.div_lt_self (Nat.succ_pos m) (by omega)
      rw [natDigitsCore, natDigitsCore_append, natFromDigits_append_single, ih _ hlt,
        digitVal_digitChar _ (Nat.mod_lt _ (by omega))]
      omega

theorem natFromDigits_natDigits (n : Nat) : natFromDigits (natDigits n) = n := by
  by_cases h : n = 0
  · subst h; rfl
  · rw [natDigits, if_neg h]; exact natFromDigits_core n

theorem natDigitsCore_digits (n : Nat) : ∀ c ∈ natDigitsCore n [], isAsciiDigit c = true := by
  induction n using Nat.strong_induction_on with
  | _ n ih =>
    match n with
    | 0 => intro c hc; simp [natDigitsCore] at hc
    | m + 1 =>
      have hlt : (m + 1) / 10 < m + 1 := Nat.div_lt_self (Nat.succ_pos m) (by omega)
      intro c hc
      rw [natDigitsCore, natDigitsCore_append] at hc
      rcases List.mem_append.mp hc with h | h
      · exact ih _ hlt c h
      · rw [List.mem_singleton] at h
        subst h
        exact digitChar_isDigit _

theorem natDigits_digits (n : Nat) : ∀ c ∈ natDigits n, isAsciiDigit c = true := by
  by_cases h : n = 0
  · subst h; intro c hc; simp [natDigits] at hc; subst hc; decide
  · rw [natDigits, if_neg h]; exact natDigitsCore_digits n

theorem natDigits_ne_nil (n : Nat) : natDigits n ≠ [] := by
  by_cases h : n = 0
  · subst h; simp [natDigits]
  · rw [natDigits, if_neg h]
    match n, h with
    | m + 1, _ =>
      rw [natDigitsCore, natDigitsCore_append]
      simp

theorem digit_ne (c : Char) (h : isAsciiDigit c = true) :
    c ≠ '-' ∧ c ≠ '"' ∧ c ≠ '\x7b' ∧ c ≠ '[' ∧ c ≠ '\n' ∧ c ≠ ' ' ∧ c ≠ '\\' ∧ c ≠ ':' := by
  refine ⟨?_, ?_, ?_, ?_, ?_, ?_, ?_, ?_⟩ <;> (rintro rfl; exact absurd h (by decide))

theorem plainIsInt_cons (c : Char) (t : List Char) (h : c ≠ '-') :
    plainIsInt (c :: t) = (!(c :: t).isEmpty && (c :: t).all isAsciiDigit) := by
  rw [plainIsInt.eq_def]
  split <;> simp_all

theorem intFromPlain_cons (c : Char) (t : List Char) (h : c ≠ '-') :
    intFromPlain (c :: t) = (natFromDigits (c :: t) : Int) := by
  rw [intFromPlain.eq_def]
  split <;> simp_all

theorem parseScalarCore_cons (c : Char) (t : List Char) (hq : c ≠ '"') :
    parseScalarCore (c :: t) = some (parsePlainText (c :: t)) := by
  rw [parseScalarCore.eq_def]
  split <;> simp_all

theorem parseScalarText_cons (c : Char) (t : List Char) (hq : c ≠ '"')
    (h1 : c ≠ '\x7b') (h2 : c ≠ '[') :
    parseScalarText (c :: t) = some (parsePlainText (c :: t)) := by
  rw [parseScalarText]
  rw [if_neg (by simp [h1]), if_neg (by simp [h2])]
  exact parseScalarCore_cons c t hq

theorem string_eq_of_data (a b : String) (h : a.data = b.data) : a = b := by
  cases a
  cases b
  exact congrArg String.mk (by simpa using h)

theorem plain_ne (c : Char) (h : isPlainChar c = true) :
    c ≠ '"' ∧ c ≠ '\x7b' ∧ c ≠ '[' ∧ c ≠ '\n' ∧ c ≠ '#' := by
  refine ⟨?_, ?_, ?_, ?_, ?_⟩ <;> (rintro rfl; exact absurd h (by decide))

theorem intText_roundtrip (n : Int) : parseScalarText (intText n) = some (.i n) := by
  match n with
  | .ofNat m =>
    have hdig := natDigits_digits m
    obtain ⟨c, t, hct⟩ : ∃ c t, natDigits m = c :: t := by
      match h : natDigits m with
      | [] => exact absurd h (natDigits_ne_nil m)
      | c :: t => exact ⟨c, t, rfl⟩
    have hc : isAsciiDigit c = true := hdig c (by rw [hct]; exact List.mem_cons_self c t)
    obtain ⟨hd1, hd2, hd3, hd4, hd5, hd6, hd7, hd8⟩ := digit_ne c hc
    have hall : (c :: t).all isAsciiDigit = true := by
      rw [← hct]
      exact List.all_eq_true.mpr hdig
    show parseScalarText (natDigits m) = _
    rw [hct, parseScalarText_cons c t hd2 hd3 hd4, parsePlainText, plainIsInt_cons c t hd1]
    simp only [List.isEmpty_cons, Bool.not_false, hall, Bool.and_self, if_true]
    rw [intFromPlain_cons c t hd1, ← hct, natFromDigits_natDigits]
    rfl
  | .negSucc m =>
    show parseScalarText ('-' :: natDigits (m + 1)) = _
    have hne := natDigits_ne_nil (m + 1)
    have hall : (natDigits (m + 1)).all isAsciiDigit = true :=
      List.all_eq_true.mpr (natDigits_digits (m + 1))
    rw [parseScalarText_cons '-' _ (by decide) (by decide) (by decide), parsePlainText]
    have hint : plainIsInt ('-' :: natDigits (m + 1)) = true := by
      show (!(natDigits (m + 1)).isEmpty && (natDigits (m + 1)).all isAsciiDigit) = true
      rw [hall]
      simp [List.isEmpty_iff, hne]
    rw [hint]
    show some (YVal.i (-(natFromDigits (natDigits (m + 1)) : Int))) = _
    rw [natFromDigits_natDigits]
    norm_num [Int.negSucc_eq]

theorem scalarTextD_roundtrip (v : YVal)
    (h : isScalar v = true ∨ v = .m [] ∨ v = .l []) :
    parseScalarText (scalarTextD v) = some v := by
  match v with
  | .m es =>
    rcases h with h | h | h
    · exact absurd h (by simp [isScalar])
    · rw [h]; rfl
    · exact absurd h (by simp)
  | .l items =>
    rcases h with h | h | h
    · exact absurd h (by simp [isScalar])
    · exact absurd h (by simp)
    · rw [h]; rfl
  | .b true => rfl
  | .b false => rfl
  | .i n => exact intText_roundtrip n
  | .s s =>
    by_cases hp : plainSafeVal s = true
    · have hsd : scalarTextD (.s s) = s.data := by simp [scalarTextD, hp]
      simp only [plainSafeVal, Bool.and_eq_true, Bool.not_eq_true'] at hp
      obtain ⟨⟨⟨⟨⟨⟨⟨⟨h1, h2⟩, h3⟩, h4⟩, h5⟩, h6⟩, h7⟩, h8⟩, h9⟩ := hp
      obtain ⟨c, t, hct⟩ : ∃ c t, s.data = c :: t := by
        match hh : s.data with
        | [] => rw [hh] at h1; exact absurd h1 (by simp)
        | c :: t => exact ⟨c, t, rfl⟩
      have hc : isPlainChar c = true := by
        have := List.all_eq_true.mp h2 c (by rw [hct]; exact List.mem_cons_self c t)
        exact this
      obtain ⟨hq, hb1, hb2, hnl, hsh⟩ := plain_ne c hc
      rw [hsd, hct, parseScalarText_cons c t hq hb1 hb2, parsePlainText]
      rw [← hct, h7]
      have htr : (s.data = "true".data) = False := by
        simp only [eq_iff_iff, iff_false]
        intro hd
        have : s = "true" := string_eq_of_data _ _ hd
        rw [this] at h8
        simp at h8
      have hfa : (s.data = "false".data) = False := by
        simp only [eq_iff_iff, iff_false]
        intro hd
        have : s = "false" := string_eq_of_data _ _ hd
        rw [this] at h9
        simp at h9
      simp only [htr, hfa, if_false, Bool.false_eq_true]
    · have hsd : scalarTextD (.s s) = dquoteText s := by
        simp [scalarTextD, hp]
      rw [hsd, dquoteText]
      rw [parseScalarText]
      rw [if_neg (by simp), if_neg (by simp)]
      show (match dqBody (s.data.flatMap escChar ++ ['"']) with
        | some (v, []) => some (YVal.s ⟨v⟩)
        | _ => none) = some (.s s)
      rw [dqBody_flatMap]

theorem alnum_ne (c : Char) (h : isAlnumChar c = true) :
    c ≠ ' ' ∧ c ≠ '-' ∧ c ≠ '"' ∧ c ≠ ':' ∧ c ≠ '\n' ∧ c ≠ '\x7b' ∧ c ≠ '[' := by
  refine ⟨?_, ?_, ?_, ?_, ?_, ?_, ?_⟩ <;> (rintro rfl; exact absurd h (by decide))

theorem takeWhile_append_not (p : Char → Bool) (xs : List Char) (c : Char) (r : List Char)
    (h : xs.all p = true) (hc : p c = false) :
    (xs ++ c :: r).takeWhile p = xs := by
  induction xs with
  | nil => simp [List.takeWhile_cons, hc]
  | cons x xt ih =>
    simp only [List.all_cons, Bool.and_eq_true] at h
    simp [List.takeWhile_cons, h.1, ih h.2]

theorem dropWhile_append_not (p : Char → Bool) (xs : List Char) (c : Char) (r : List Char)
    (h : xs.all p = true) (hc : p c = false) :
    (xs ++ c :: r).dropWhile p = c :: r := by
  induction xs with
  | nil => simp [List.dropWhile_cons, hc]
  | cons x xt ih =>
    simp only [List.all_cons, Bool.and_eq_true] at h
    simp [List.dropWhile_cons, h.1, ih h.2]

theorem indentOf_pref (ind : Nat) (c : Char) (t : List Char) (h : c ≠ ' ') :
    indentOf (mkIndent ind ++ c :: t) = ind := by
  rw [indentOf, mkIndent,
    takeWhile_append_not _ _ _ _ (by simp [List.all_eq_true]) (by simp [h]),
    List.length_replicate]

theorem lineContent_pref (ind : Nat) (c : Char) (t : List Char) (h : c ≠ ' ') :
    lineContent (mkIndent ind ++ c :: t) = c :: t := by
  rw [lineContent, mkIndent,
    dropWhile_append_not _ _ _ _ (by simp [List.all_eq_true]) (by simp [h])]

theorem keyText_head (k : String) :
    ∃ c t, keyText k = c :: t ∧ c ≠ ' ' ∧ c ≠ '-' := by
  rw [keyText]
  by_cases hk : plainSafeKey k = true
  · rw [if_pos hk]
    simp only [plainSafeKey, Bool.and_eq_true] at hk
    obtain ⟨⟨⟨h1, h2⟩, h3⟩, h4⟩ := hk
    match hd : k.data with
    | [] => rw [hd] at h1; exact absurd h1 (by simp)
    | c :: t =>
      refine ⟨c, t, rfl, ?_, ?_⟩
      · rw [hd] at h3
        simp only [List.headD_cons] at h3
        rcases Bool.or_eq_true .. |>.mp h3 with ha | hu
        · exact (alnum_ne c ha).1
        · intro hc
          rw [hc] at hu
          exact absurd hu (by decide)
      · rw [hd] at h3
        simp only [List.headD_cons] at h3
        rcases Bool.or_eq_true .. |>.mp h3 with ha | hu
        · exact (alnum_ne c ha).2.1
        · intro hc
          rw [hc] at hu
          exact absurd hu (by decide)
  · rw [if_neg hk, dquoteText]
    exact ⟨'"', _, rfl, by decide, by decide⟩

theorem startsDash_cons (c : Char) (t : List Char) (h : c ≠ '-') :
    startsDash (c :: t) = false := by
  rw [startsDash, listStarts]
  simp only [Bool.and_eq_false_iff]
  left
  simp [h]
  exact fun hh => h hh.symm

theorem keyLine_facts (ind : Nat) (k : String) (tl : List Char) :
    (mkIndent ind ++ keyText k ++ ':' :: tl).isEmpty = false
    ∧ indentOf (mkIndent ind ++ keyText k ++ ':' :: tl) = ind
    ∧ startsDash (lineContent (mkIndent ind ++ keyText k ++ ':' :: tl)) = false
    ∧ lineContent (mkIndent ind ++ keyText k ++ ':' :: tl) = keyText k ++ ':' :: tl := by
  obtain ⟨c, t, hct, hs, hd⟩ := keyText_head k
  have hshape : mkIndent ind ++ keyText k ++ ':' :: tl
      = mkIndent ind ++ c :: (t ++ ':' :: tl) := by
    rw [hct]
    simp
  rw [hshape]
  refine ⟨by simp, indentOf_pref ind c _ hs, ?_, ?_⟩
  · rw [lineContent_pref ind c _ hs]
    exact startsDash_cons c _ hd
  · rw [lineContent_pref ind c _ hs, hct]
    simp

theorem parseKeyFrom_cons (c : Char) (t : List Char) (h : c ≠ '"') :
    parseKeyFrom (c :: t) = parseKeyPlain (c :: t) := by
  rw [parseKeyFrom.eq_def]
  split <;> simp_all

theorem parseKeyFrom_plain (k : String) (tl : List Char) (hk : plainSafeKey k = true) :
    parseKeyFrom (k.data ++ ':' :: tl) = some (k, tl) := by
  have hk' := hk
  simp only [plainSafeKey, Bool.and_eq_true] at hk'
  obtain ⟨⟨⟨h1, h2⟩, h3⟩, h4⟩ := hk'
  have hall : k.data.all (fun c => !(c == ':')) = true := by
    rw [List.all_eq_true]
    intro c hc
    have := List.all_eq_true.mp h2 c hc
    simp only [Bool.and_eq_true] at this
    exact this.2
  match hd : k.data with
  | [] => rw [hd] at h1; exact absurd h1 (by simp)
  | c :: t =>
    have hcp : isPlainChar c = true := by
      have := List.all_eq_true.mp h2 c (by rw [hd]; exact List.mem_cons_self c t)
      simp only [Bool.and_eq_true] at this
      exact this.1
    have hcq : c ≠ '"' := (plain_ne c hcp).1
    rw [← hd]
    have hshape : k.data ++ ':' :: tl = c :: (t ++ ':' :: tl) := by rw [hd]; simp
    rw [hshape, parseKeyFrom_cons c _ hcq, parseKeyPlain, ← hshape]
    rw [takeWhile_append_not _ _ _ _ hall (by decide),
      dropWhile_append_not _ _ _ _ hall (by decide)]
    simp [mk_data_eq]

theorem parseKeyFrom_dq (k : String) (tl : List Char) :
    parseKeyFrom (dquoteText k ++ ':' :: tl) = some (k, tl) := by
  rw [dquoteText]
  show (match dqBody ((k.data.flatMap escChar ++ ['"']) ++ ':' :: tl) with
    | some (k, ':' :: after) => some ((⟨k⟩ : String), after)
    | _ => none) = some (k, tl)
  rw [List.append_assoc]
  show (match dqBody (k.data.flatMap escChar ++ '"' :: ':' :: tl) with
    | some (k, ':' :: after) => some ((⟨k⟩ : String), after)
    | _ => none) = some (k, tl)
  rw [dqBody_flatMap]
  simp [mk_data_eq]

theorem keyText_parse (k : String) (tl : List Char) :
    parseKeyFrom (keyText k ++ ':' :: tl) = some (k, tl) := by
  rw [keyText]
  by_cases hk : plainSafeKey k = true
  · rw [if_pos hk]
    exact parseKeyFrom_plain k tl hk
  · rw [if_neg hk]
    exact parseKeyFrom_dq k tl

theorem keyText_noNl (k : String) : '\n' ∉ keyText k := by
  rw [keyText]
  by_cases hk : plainSafeKey k = true
  · rw [if_pos hk]
    simp only [plainSafeKey, Bool.and_eq_true] at hk
    intro hm
    have := List.all_eq_true.mp hk.1.1.2 _ hm
    simp only [Bool.and_eq_true] at this
    exact absurd this.1 (by decide)
  · rw [if_neg hk, dquoteText]
    intro hm
    rcases List.mem_cons.mp hm with h | h
    · exact absurd h (by decide)
    · rcases List.mem_append.mp h with h | h
      · obtain ⟨c, _, hc⟩ := List.mem_flatMap.mp h
        exact escChar_ne_nl c hc
      · simp only [List.mem_singleton] at h
        exact absurd h (by decide)

theorem scalarTextD_noNl (v : YVal) : '\n' ∉ scalarTextD v := by
  match v with
  | .m es => rw [scalarTextD]; decide
  | .l items => rw [scalarTextD]; decide
  | .b true => rw [scalarTextD]; decide
  | .b false => rw [scalarTextD]; decide
  | .i n =>
    rw [scalarTextD]
    match n with
    | .ofNat m =>
      intro hm
      have := natDigits_digits m _ hm
      exact absurd this (by decide)
    | .negSucc m =>
      intro hm
      rcases List.mem_cons.mp hm with h | h
      · exact absurd h (by decide)
      · exact absurd (natDigits_digits (m + 1) _ h) (by decide)
  | .s s =>
    rw [scalarTextD]
    by_cases hp : plainSafeVal s = true
    · rw [if_pos hp]
      simp only [plainSafeVal, Bool.and_eq_true] at hp
      intro hm
      have := List.all_eq_true.mp hp.1.1.1.1.1.1.1.2 _ hm
      exact absurd this (by decide)
    · rw [if_neg hp, dquoteText]
      intro hm
      rcases List.mem_cons.mp hm with h | h
      · exact absurd h (by decide)
      · rcases List.mem_append.mp h with h | h
        · obtain ⟨c, _, hc⟩ := List.mem_flatMap.mp h
          exact escChar_ne_nl c hc
        · simp only [List.mem_singleton] at h
          exact absurd h (by decide)

theorem mkIndent_noNl (ind : Nat) : '\n' ∉ mkIndent ind := by
  rw [mkIndent]
  intro hm
  have := List.eq_of_mem_replicate hm
  exact absurd this (by decide)

theorem keyline_noNl (ind : Nat) (k : String) (tl : List Char) (h : '\n' ∉ tl) :
    '\n' ∉ mkIndent ind ++ keyText k ++ ':' :: tl := by
  intro hm
  rcases List.mem_append.mp hm with hm | hm
  · rcases List.mem_append.mp hm with hm | hm
    · exact mkIndent_noNl ind hm
    · exact keyText_noNl k hm
  · rcases List.mem_cons.mp hm with hm | hm
    · exact absurd hm (by decide)
    · exact h hm

mutual

theorem entryLines_noNl (ind : Nat) (k : String) (v : YVal) :
    ∀ l ∈ entryLines ind k v, '\n' ∉ l := by
  match v with
  | .m [] =>
    intro l hl
    rw [entryLines] at hl
    simp only [List.mem_singleton] at hl
    subst hl
    exact keyline_noNl ind k _ (by decide)
  | .l [] =>
    intro l hl
    rw [entryLines] at hl
    simp only [List.mem_singleton] at hl
    subst hl
    exact keyline_noNl ind k _ (by decide)
  | .m (e :: es) =>
    intro l hl
    rw [entryLines] at hl
    rcases List.mem_cons.mp hl with h | h
    · subst h
      have : ('\n' : Char) ∉ ([] : List Char) := by decide
      simpa using keyline_noNl ind k [] (by decide)
    · exact dumpEntries_noNl (ind + 2) (e :: es) l h
  | .l (x :: xs) =>
    intro l hl
    rw [entryLines] at hl
    rcases List.mem_cons.mp hl with h | h
    · subst h
      simpa using keyline_noNl ind k [] (by decide)
    · obtain ⟨v', hv', hveq⟩ := List.mem_map.mp h
      subst hveq
      intro hm
      rcases List.mem_append.mp hm with hm | hm
      · exact mkIndent_noNl ind hm
      · rcases List.mem_cons.mp hm with hm | hm
        · exact absurd hm (by decide)
        · rcases List.mem_cons.mp hm with hm | hm
          · exact absurd hm (by decide)
          · exact scalarTextD_noNl v' hm
  | .s s =>
    intro l hl
    simp only [entryLines, List.mem_singleton] at hl
    subst hl
    exact keyline_noNl ind k _ (by
      intro hm
      rcases List.mem_cons.mp hm with hm | hm
      · exact absurd hm (by decide)
      · exact scalarTextD_noNl (.s s) hm)
  | .i n =>
    intro l hl
    simp only [entryLines, List.mem_singleton] at hl
    subst hl
    exact keyline_noNl ind k _ (by
      intro hm
      rcases List.mem_cons.mp hm with hm | hm
      · exact absurd hm (by decide)
      · exact scalarTextD_noNl (.i n) hm)
  | .b b =>
    intro l hl
    simp only [entryLines, List.mem_singleton] at hl
    subst hl
    exact keyline_noNl ind k _ (by
      intro hm
      rcases List.mem_cons.mp hm with hm | hm
      · exact absurd hm (by decide)
      · exact scalarTextD_noNl (.b b) hm)

theorem dumpEntries_noNl (ind : Nat) (es : List (String × YVal)) :
    ∀ l ∈ dumpEntries ind es, '\n' ∉ l := by
  match es with
  | [] =>
    intro l hl
    rw [dumpEntries] at hl
    exact absurd hl (by simp)
  | e :: es =>
    intro l hl
    rw [dumpEntries] at hl
    rcases List.mem_append.mp hl with h | h
    · exact entryLines_noNl ind e.1 e.2 l h
    · exact dumpEntries_noNl ind es l h

end

theorem splitChar_cons_ne (sep c : Char) (t : List Char) (h : c ≠ sep) :
    splitChar sep (c :: t) =
      match splitChar sep t with
      | [] => [[c]]
      | h :: r => (c :: h) :: r := by
  rw [splitChar]
  simp [h]

theorem splitChar_append_sep (l r : List Char) (h : '\n' ∉ l) :
    splitChar '\n' (l ++ '\n' :: r) = l :: splitChar '\n' r := by
  induction l with
  | nil =>
    rw [List.nil_append, splitChar]
    simp
  | cons c t ih =>
    have hc : c ≠ '\n' := fun hh => h (hh ▸ List.mem_cons_self c t)
    have ht : '\n' ∉ t := fun hm => h (List.mem_cons_of_mem c hm)
    rw [List.cons_append, splitChar_cons_ne '\n' c _ hc, ih ht]

theorem splitChar_ne_nil (sep : Char) (l : List Char) : splitChar sep l ≠ [] := by
  match l with
  | [] => rw [splitChar]; simp
  | c :: t =>
    rw [splitChar]
    by_cases h : (c == sep) = true
    · simp [h]
    · simp only [h]
      match ht : splitChar sep t with
      | [] => simp
      | h :: r => simp

theorem splitChar_joinNl (ls : List (List Char)) (h : ∀ l ∈ ls, '\n' ∉ l) :
    splitChar '\n' (joinNl ls) = ls ++ [[]] := by
  induction ls with
  | nil => rfl
  | cons l t ih =>
    rw [joinNl, splitChar_append_sep l _ (h l (List.mem_cons_self l t)),
      ih (fun x hx => h x (List.mem_cons_of_mem l hx))]
    rfl

/-- The value shapes a mapping entry renders on a single line. -/
def inlineVal (v : YVal) : Prop :=
  isScalar v = true ∨ v = .m [] ∨ v = .l []

theorem entryLines_scalar (ind : Nat) (k : String) (v : YVal) (h : inlineVal v) :
    entryLines ind k v = [mkIndent ind ++ keyText k ++ ':' :: ' ' :: scalarTextD v] := by
  match v with
  | .m es =>
    rcases h with h | h | h
    · exact absurd h (by simp [isScalar])
    · rw [h]
      simp [entryLines, scalarTextD]
    · exact absurd h (by simp)
  | .l items =>
    rcases h with h | h | h
    · exact absurd h (by simp [isScalar])
    · exact absurd h (by simp)
    · rw [h]
      simp [entryLines, scalarTextD]
  | .s s => simp [entryLines]
  | .i n => simp [entryLines]
  | .b b => simp [entryLines]

theorem dumpEntries_cons (ind : Nat) (e : String × YVal) (es : List (String × YVal)) :
    dumpEntries ind (e :: es) = entryLines ind e.1 e.2 ++ dumpEntries ind es := by
  rw [dumpEntries]

theorem dump_first (ind : Nat) (k : String) (v : YVal) (es : List (String × YVal)) :
    ∃ tl ls, dumpEntries ind ((k, v) :: es) = (mkIndent ind ++ keyText k ++ ':' :: tl) :: ls := by
  rw [dumpEntries_cons]
  match v with
  | .m [] => exact ⟨_, _, rfl⟩
  | .l [] => exact ⟨_, _, rfl⟩
  | .m (e :: es2) =>
    rw [show entryLines ind k (.m (e :: es2))
        = (mkIndent ind ++ keyText k ++ [':']) :: dumpEntries (ind + 2) (e :: es2)
      from by rw [entryLines]]
    exact ⟨[], _, rfl⟩
  | .l (x :: xs) =>
    rw [show entryLines ind k (.l (x :: xs))
        = (mkIndent ind ++ keyText k ++ [':'])
            :: (x :: xs).map (fun v => mkIndent ind ++ '-' :: ' ' :: scalarTextD v)
      from by rw [entryLines]]
    exact ⟨[], _, rfl⟩
  | .s s =>
    rw [entryLines_scalar ind k (.s s) (Or.inl rfl)]
    exact ⟨' ' :: scalarTextD (.s s), dumpEntries ind es, by simp⟩
  | .i n =>
    rw [entryLines_scalar ind k (.i n) (Or.inl rfl)]
    exact ⟨' ' :: scalarTextD (.i n), dumpEntries ind es, by simp⟩
  | .b b =>
    rw [entryLines_scalar ind k (.b b) (Or.inl rfl)]
    exact ⟨' ' :: scalarTextD (.b b), dumpEntries ind es, by simp⟩

theorem dump_head_facts (ind : Nat) (es : List (String × YVal)) (hne : es ≠ []) :
    ∃ l ls, dumpEntries ind es = l :: ls ∧ l.isEmpty = false ∧ indentOf l = ind
      ∧ startsDash (lineContent l) = false := by
  match es with
  | [] => exact absurd rfl hne
  | (k, v) :: tail =>
    obtain ⟨tl, ls, hd⟩ := dump_first ind k v tail
    obtain ⟨h1, h2, h3, _⟩ := keyLine_facts ind k tl
    exact ⟨_, ls, hd, h1, h2, h3⟩

/-- The remaining lines after a dumped block: none, or starting with an
empty line or one indented strictly less than `ind`. -/
def restLow (ind : Nat) (rest : List (List Char)) : Prop :=
  ∀ l ls, rest = l :: ls → l = [] ∨ indentOf l < ind

/-- The remaining lines after a dumped item run: none, or starting with a
line at which item parsing at `ind` stops. -/
def itemsLow (ind : Nat) (rest : List (List Char)) : Prop :=
  ∀ l ls, rest = l :: ls →
    l = [] ∨ indentOf l < ind ∨ (indentOf l = ind ∧ startsDash (lineContent l) = false)

theorem restLow_mono (ind ind' : Nat) (rest : List (List Char))
    (h : restLow ind rest) (hle : ind ≤ ind') : restLow ind' rest := by
  intro l ls hrest
  rcases h l ls hrest with h | h
  · exact Or.inl h
  · exact Or.inr (Nat.lt_of_lt_of_le h hle)

theorem restLow_itemsLow (ind : Nat) (rest : List (List Char)) (h : restLow ind rest) :
    itemsLow ind rest := by
  intro l ls hrest
  rcases h l ls hrest with h | h
  · exact Or.inl h
  · exact Or.inr (Or.inl h)

theorem parseEntries_nil (f ind : Nat) : parseEntries f ind [] = some ([], []) := by
  match f with
  | 0 => rfl
  | f + 1 => rfl

theorem parseEntries_stop (f ind : Nat) (rest : List (List Char)) (h : restLow ind rest) :
    parseEntries (f + 1) ind rest = some ([], rest) := by
  match rest with
  | [] => rfl
  | l :: ls =>
    rw [parseEntries]
    rcases h l ls rfl with h | h
    · rw [if_pos (by simp [h, List.isEmpty_nil])]
    · rw [if_pos (by simp [Nat.ne_of_lt h])]

theorem parseItems_stop (ind : Nat) (rest : List (List Char)) (h : itemsLow ind rest) :
    parseItems ind rest = some ([], rest) := by
  match rest with
  | [] => rfl
  | l :: ls =>
    rw [parseItems]
    rcases h l ls rfl with h | h | h
    · rw [if_pos (by simp [h, List.isEmpty_nil])]
    · rw [if_pos (by simp [Nat.ne_of_lt h])]
    · rw [if_pos (by simp [h.1, h.2])]

theorem startsDash_dash (t : List Char) : startsDash ('-' :: ' ' :: t) = true := by
  rw [startsDash]
  rfl

theorem parseItems_dump (ind : Nat) (items : List YVal) (rest : List (List Char))
    (hall : items.all isScalar = true) (hstop : itemsLow ind rest) :
    parseItems ind (items.map (fun v => mkIndent ind ++ '-' :: ' ' :: scalarTextD v) ++ rest)
      = some (items, rest) := by
  induction items with
  | nil =>
    rw [List.map_nil, List.nil_append]
    exact parseItems_stop ind rest hstop
  | cons x xs ih =>
    simp only [List.all_cons, Bool.and_eq_true] at hall
    rw [List.map_cons, List.cons_append, parseItems]
    have hlc : lineContent (mkIndent ind ++ '-' :: ' ' :: scalarTextD x)
        = '-' :: ' ' :: scalarTextD x := lineContent_pref ind '-' _ (by decide)
    rw [if_neg (by
      simp only [hlc, indentOf_pref ind '-' _ (by decide), startsDash_dash,
        Bool.not_true, Bool.or_false, Bool.or_eq_true, ne_eq, decide_not]
      simp)]
    rw [hlc]
    rw [show ('-' :: ' ' :: scalarTextD x).drop 2 = scalarTextD x from rfl]
    rw [scalarTextD_roundtrip x (Or.inl hall.1)]
    rw [ih hall.2]
    rfl

theorem parseEntries_dump (fuel : Nat) :
    ∀ ind es rest, goodEntriesB es = true → restLow ind rest →
      (dumpEntries ind es ++ rest).length ≤ fuel →
      parseEntries fuel ind (dumpEntries ind es ++ rest) = some (es, rest) := by
  induction fuel with
  | zero =>
    intro ind es rest hg hlow hfuel
    have h0 : dumpEntries ind es ++ rest = [] :=
      List.eq_nil_of_length_eq_zero (Nat.le_zero.mp hfuel)
    obtain ⟨hdn, hrn⟩ := List.append_eq_nil.mp h0
    have hes : es = [] := by
      match es with
      | [] => rfl
      | (k, v) :: tail =>
        obtain ⟨tl, ls, hd⟩ := dump_first ind k v tail
        rw [hd] at hdn
        exact absurd hdn (by simp)
    subst hes
    subst hrn
    rw [show dumpEntries ind [] = [] from by rw [dumpEntries], List.nil_append]
    exact parseEntries_nil 0 ind
  | succ f ih =>
    intro ind es rest hg hlow hfuel
    match es with
    | [] =>
      rw [show dumpEntries ind [] = [] from by rw [dumpEntries], List.nil_append] at hfuel ⊢
      exact parseEntries_stop f ind rest hlow
    | (k, v) :: esTail =>
      simp only [goodEntriesB, goodVal, Bool.and_eq_true] at hg
      obtain ⟨hgv, hgt⟩ := hg
      rw [dumpEntries_cons, List.append_assoc] at hfuel ⊢
      by_cases hinl : inlineVal v
      · -- single-line entry
        rw [entryLines_scalar ind k v hinl] at hfuel ⊢
        rw [List.singleton_append] at hfuel ⊢
        obtain ⟨hlne, hlind, hldash, hlcont⟩ := keyLine_facts ind k (' ' :: scalarTextD v)
        simp only [List.append_assoc] at hlne hlind hldash hlcont hfuel ⊢
        have hf' : (dumpEntries ind esTail ++ rest).length ≤ f := by
          simp only [List.length_cons] at hfuel
          omega
        rw [parseEntries]
        rw [if_neg (by simp [hlne, hlind, hldash])]
        rw [hlcont, keyText_parse k (' ' :: scalarTextD v)]
        simp only [scalarTextD_roundtrip v hinl, ih ind esTail rest hgt hlow hf']
      · cases v with
        | s s => exact absurd (Or.inl rfl) hinl
        | i n => exact absurd (Or.inl rfl) hinl
        | b b => exact absurd (Or.inl rfl) hinl
        | m es2 =>
          cases es2 with
          | nil => exact absurd (Or.inr (Or.inl rfl)) hinl
          | cons e2 es2 =>
            have hent : entryLines ind k (.m (e2 :: es2))
                = (mkIndent ind ++ keyText k ++ ':' :: [])
                    :: dumpEntries (ind + 2) (e2 :: es2) := by
              rw [entryLines]
            rw [hent, List.cons_append] at hfuel ⊢
            simp only [goodVal] at hgv
            obtain ⟨hlne, hlind, hldash, hlcont⟩ := keyLine_facts ind k []
            simp only [List.append_assoc] at hlne hlind hldash hlcont hfuel ⊢
            obtain ⟨l2, ls2, hd2, h2ne, h2ind, h2dash⟩ :=
              dump_head_facts (ind + 2) (e2 :: es2) (by simp)
            have hXlow : restLow (ind + 2) (dumpEntries ind esTail ++ rest) := by
              match esTail with
              | [] =>
                rw [show dumpEntries ind [] = [] from by rw [dumpEntries], List.nil_append]
                exact restLow_mono ind (ind + 2) rest hlow (by omega)
              | t :: ts =>
                obtain ⟨l3, ls3, hd3, _, h3ind, _⟩ := dump_head_facts ind (t :: ts) (by simp)
                intro l ls hrest
                rw [hd3, List.cons_append] at hrest
                right
                rw [← (List.cons.injEq .. |>.mp hrest).1, h3ind]
                omega
            have hlen2 : 1 ≤ (dumpEntries (ind + 2) (e2 :: es2)).length := by
              rw [hd2]
              simp
            have hf1 : (dumpEntries (ind + 2) (e2 :: es2)
                ++ (dumpEntries ind esTail ++ rest)).length ≤ f := by
              simp only [List.length_cons, List.length_append] at hfuel ⊢
              omega
            have hf2 : (dumpEntries ind esTail ++ rest).length ≤ f := by
              simp only [List.length_append] at hlen2
              simp only [List.length_cons, List.length_append] at hfuel ⊢
              omega
            have hinner := ih (ind + 2) (e2 :: es2) (dumpEntries ind esTail ++ rest) hgv hXlow hf1
            have houter := ih ind esTail rest hgt hlow hf2
            rw [hd2, List.cons_append] at hinner
            rw [parseEntries]
            rw [if_neg (by simp [hlne, hlind, hldash])]
            rw [hlcont, keyText_parse k []]
            rw [hd2, List.cons_append]
            simp [h2ne, h2ind, h2dash, hinner, houter]
        | l items =>
          cases items with
          | nil => exact absurd (Or.inr (Or.inr rfl)) hinl
          | cons x xs =>
            have hent : entryLines ind k (.l (x :: xs))
                = (mkIndent ind ++ keyText k ++ ':' :: [])
                    :: (x :: xs).map (fun v => mkIndent ind ++ '-' :: ' ' :: scalarTextD v) := by
              rw [entryLines]
            rw [hent, List.cons_append] at hfuel ⊢
            simp only [goodVal] at hgv
            obtain ⟨hlne, hlind, hldash, hlcont⟩ := keyLine_facts ind k []
            simp only [List.append_assoc] at hlne hlind hldash hlcont hfuel ⊢
            have hXitems : itemsLow ind (dumpEntries ind esTail ++ rest) := by
              match esTail with
              | [] =>
                rw [show dumpEntries ind [] = [] from by rw [dumpEntries], List.nil_append]
                exact restLow_itemsLow ind rest hlow
              | t :: ts =>
                obtain ⟨l3, ls3, hd3, _, h3ind, h3dash⟩ :=
                  dump_head_facts ind (t :: ts) (by simp)
                intro l ls hrest
                rw [hd3, List.cons_append] at hrest
                right
                right
                rw [← (List.cons.injEq .. |>.mp hrest).1]
                exact ⟨h3ind, h3dash⟩
            have hf2 : (dumpEntries ind esTail ++ rest).length ≤ f := by
              simp only [List.length_cons, List.length_append, List.length_map] at hfuel ⊢
              omega
            have houter := ih ind esTail rest hgt hlow hf2
            have hitems := parseItems_dump ind (x :: xs) (dumpEntries ind esTail ++ rest) hgv hXitems
            rw [List.map_cons, List.cons_append] at hitems ⊢
            have hne2 : ind ≠ ind + 2 := by omega
            rw [parseEntries]
            rw [if_neg (by simp [hlne, hlind, hldash])]
            rw [hlcont, keyText_parse k []]
            simp [hitems, houter, indentOf_pref ind '-' _ (by decide),
              lineContent_pref ind '-' _ (by decide), startsDash_dash, hne2]

theorem safeLoad_dump (es : List (String × YVal)) (hg : goodEntriesB es = true)
    (hne : es ≠ []) : safeLoadDict (generate_yaml es) = some es := by
  have hsplit : splitChar '\n' (generate_yaml es).data = dumpEntries 0 es ++ [[]] := by
    rw [generate_yaml]
    exact splitChar_joinNl _ (dumpEntries_noNl 0 es)
  have hlow : restLow 0 [[]] := by
    intro l ls h
    exact Or.inl (List.cons.injEq .. |>.mp h).1.symm
  rw [safeLoadDict]
  rw [hsplit]
  simp only [parseEntries_dump ((dumpEntries 0 es ++ [[]]).length) 0 es [[]] hg hlow
    (Nat.le_refl _)]
  simp [List.isEmpty_iff, hne]

theorem parse_key_value_dump (es : List (String × YVal)) (hg : goodEntriesB es = true)
    (hne : es ≠ []) : parse_key_value (generate_yaml es) = es := by
  rw [parse_key_value, safeLoad_dump es hg hne]

/-- The external environment used by the session-lifecycle trace. -/
def traceExt : ChatExt :=
  { llmResponse := "sure - let's create a glue database for you",
    repoState := { untracked := [], modifiedUnstaged := [], stagedUncommitted := [] },
    fork_owner := some "user", repo_name := "org/upstream",
    httpOutcome := .created "https://github.com/org/upstream/pull/1",
    existingUrl := none }

/-- The record the trace collects (twice). -/
def traceMsgRecord : String :=
  "INT-1, minerva_sales, s3://bkt/p, sales data, 123456789012, sap, AGTR, EMEA, us-east-1, Source, dev, raw, Jane, a@b.com, jane"

/-- One chat request of the session-lifecycle trace, for session id
`default` under `traceExt`; returns the updated store. -/
def traceStep (st : SessionStore) (msg : String) : SessionStore :=
  (chat st "default" msg traceExt).1

/-- The store after the first seven messages of the trace: greet, supply a
Glue record, say done, give a title (first publish), greet again, supply a
record again, say done again. -/
def trace7 : SessionStore :=
  traceStep (traceStep (traceStep (traceStep (traceStep (traceStep (traceStep
    emptyStore "hello there") traceMsgRecord) "done") "Add sales records batch")
    "hello there") traceMsgRecord) "done"

/-- C8: `session_store[sid] = get_session("new")` binds the id to the shared
`"new"` session object instead of a fresh one, so from the second publish of
a process on, the session stored under the id is not a fresh empty idle
session.  The trace runs two collect-and-publish rounds for session id
`default`: the eighth message is title-like and the publisher is invoked
(the response is the success message for one Glue record), and afterwards
`default` is bound to address 1 (the shared `"new"` object), which still
holds the just-published Glue record, still awaits a PR title, and is not
in the idle state — so the next 3-plus-word message would publish the same
record again. -/
theorem session_not_fresh_after_second_publish :
    ((chat trace7 "default" "Add more sales records" traceExt).2
      = publishSuccessMsg 1 0 0 "Add more sales records"
          "https://github.com/org/upstream/pull/1")
    ∧ (lookupRef (chat trace7 "default" "Add more sales records" traceExt).1 "default"
        = some 1)
    ∧ ((heapGet (chat trace7 "default" "Add more sales records" traceExt).1 1).glue_dbs.length
        = 1)
    ∧ ((heapGet (chat trace7 "default" "Add more sales records" traceExt).1 1).awaiting_pr_title
        = true)
    ∧ ((heapGet (chat trace7 "default" "Add more sales records" traceExt).1 1).state
        = "confirming") := by
  set_option maxRecDepth 100000 in
  exact ⟨rfl, rfl, rfl, rfl, rfl⟩

/-- A concrete S3 bucket record for the round-trip instance. -/
def c9S3Rec : S3BucketPRInput :=
  { intake_id := "INT-2", bucket_name := "my-data-bucket-2024",
    bucket_description := "bucket for data", aws_account_id := "123456789012",
    aws_region := "us-east-1", usage_type := "Internal",
    enterprise_or_func_name := "CORP" }

/-- A concrete IAM role record exercising every optional nested branch of
`create_iam_role_yaml`. -/
def c9IamRec : IAMRolePRInput :=
  { intake_id := "INT-3", role_name := "myrole", role_description := "role desc",
    aws_account_id := "123456789012", enterprise_or_func_name := "AGTR",
    enterprise_or_func_subgrp_name := "EMEA", role_owner := "a@b.com",
    data_env := "dev", usage_type := "EgressEngineer", compute_size := "XSML",
    max_session_duration := 8,
    access_to_resources :=
      { glue_databases := some [("minerva_sales", ["SELECT", "DESCRIBE"])],
        execution_asset_prefixes := some ["s3://bkt/code/"],
        glue_crawler := some [.s "crawler-a"] },
    glue_crawler := some [.s "crawler-top"],
    glue_job_access_configs := some
      { enable_glue_jobs := true, secret_region := some "us-east-1",
        secret_name := some "my-secret", job_control_configs := some ["jc-1"] },
    athena := some [("workgroup", .s "wg-1")] }

/-- C9: serializing a resource record's artifact dictionary with the YAML
generator and re-parsing the text with the key/value parser returns exactly
the original dictionary, for all three resource kinds.  The IAM conjunct
assumes the record's raw-YAML optional fields hold scalar sequence elements
(`goodEntriesB`), which holds for every artifact the tools construct; the
Glue and S3 conjuncts are unconditional. -/
theorem serialize_parse_roundtrip (g : GlueDBPRInput) (s : S3BucketPRInput)
    (r : IAMRolePRInput) (hr : goodEntriesB (create_iam_role_yaml r) = true) :
    parse_key_value (generate_yaml (create_glue_db_yaml g)) = create_glue_db_yaml g
    ∧ parse_key_value (generate_yaml (create_s3_bucket_yaml s)) = create_s3_bucket_yaml s
    ∧ parse_key_value (generate_yaml (create_iam_role_yaml r)) = create_iam_role_yaml r := by
  refine ⟨parse_key_value_dump _ ?_ (by simp [create_glue_db_yaml]),
    parse_key_value_dump _ ?_ (by simp [create_s3_bucket_yaml]),
    parse_key_value_dump _ hr (by simp [create_iam_role_yaml])⟩
  · simp [create_glue_db_yaml, goodEntriesB, goodVal]
  · simp [create_s3_bucket_yaml, goodEntriesB, goodVal]

/-- Witness for C9: the round trip evaluated at one concrete record of each
kind (the IAM record exercises every nested optional branch). -/
theorem serialize_parse_roundtrip_witness :
    goodEntriesB (create_iam_role_yaml c9IamRec) = true
    ∧ (parse_key_value (generate_yaml (create_glue_db_yaml glueRec0))
        = create_glue_db_yaml glueRec0
      ∧ parse_key_value (generate_yaml (create_s3_bucket_yaml c9S3Rec))
        = create_s3_bucket_yaml c9S3Rec
      ∧ parse_key_value (generate_yaml (create_iam_role_yaml c9IamRec))
        = create_iam_role_yaml c9IamRec) :=
  ⟨by simp [c9IamRec, create_iam_role_yaml, goodEntriesB, goodVal, isScalar,
      truthyOptList, truthyOptStr],
   serialize_parse_roundtrip glueRec0 c9S3Rec c9IamRec
     (by simp [c9IamRec, create_iam_role_yaml, goodEntriesB, goodVal, isScalar,
        truthyOptList, truthyOptStr])⟩

end IntakeBot
